import Mathlib

/-!
Verification of the semantic compilation layer of the a2x ALFA-to-XACML
compiler, as a shallow embedding of the Rust sources.

Conventions used throughout:
* Rust `HashMap<String, Rc<T>>` registries are modelled as association lists
  `List (String × T)` with unique keys (the `register` path refuses duplicate
  keys, so lookup order is irrelevant); `assocGet` is `HashMap::get`.
* `Rc<RefCell<...>>` name slots are modelled by value (`Option String`): the
  modelled operations (`decondition`, `insert_ns_entry`, `finalize_id`) never
  mutate a slot that is shared at the time of the mutation observed here, so
  value semantics coincide with the source's reference semantics on the
  verified paths.
* Fallible Rust functions returning `Result<_, ParseError>` become
  `Except ParseError _`; functions whose bodies can also `panic!`/`todo!`
  return `Outcome _`, where `Outcome.panic` marks a Rust process abort.
* Source locations (`SrcLoc`) carry a file name and a span; their contents are
  never interpreted by the modelled code, only threaded into errors.
-/

namespace A2X

/-- Source location (`ast/mod.rs` `SrcLoc`): a named source plus a span. -/
structure SrcLoc where
  file : String := ""
  start : Nat := 0
  len : Nat := 0
deriving DecidableEq, Repr

/-- The default source location, `SrcLoc::default()`. -/
def defaultLoc : SrcLoc := {}

/-- An ALFA import statement (`ast/import.rs` `Import`). -/
structure ImportStmt where
  components : List String
  isWildcard : Bool
deriving DecidableEq, Repr

/-- The error type of the compiler (`errors.rs` `ParseError`), restricted to the
variants reachable from the modelled code.  The `SrcError` variant models
`ParseError::SrcError(SrcError { msg, labels, src })`: a located, user-facing
error with a message and one label. -/
inductive ParseError where
  | AstConvertError
  | DuplicateSymbol (msg : String)
  | SymbolNotFound (symbol : String) (ns : String)
  | AmbiguousImport (msg : String)
  | ReversedInfixArgsNotCommutativeError
  | InverseInfixNotFound
  | InfixBagsDisallowed
  | InfixBagsBooleanRequired
  | InfixNoMatchingSignature
  | ContextMissing
  | DuplicateURI (uri : String)
  | PolicySetNoCondition
  | PolicyNoCondition
  | PolicyHasCondition
  | DuplicatePolicyEntity (name : String)
  | SrcError (msg : String) (label : String) (loc : SrcLoc)
deriving DecidableEq, Repr

/-- Result of running a piece of Rust code that may also abort the process:
`ok` is a normal return, `err` a returned `ParseError`, and `panic` a process
abort via `panic!`/`todo!`. -/
inductive Outcome (α : Type) where
  | ok (a : α)
  | err (e : ParseError)
  | panic (msg : String)
deriving Repr, DecidableEq

/-- Monadic bind for `Outcome`: errors and panics propagate. -/
def Outcome.bind {α β : Type} : Outcome α → (α → Outcome β) → Outcome β
  | .ok a, f => f a
  | .err e, _ => .err e
  | .panic m, _ => .panic m

instance : Monad Outcome where
  pure := Outcome.ok
  bind := Outcome.bind

/-- Lift a `Result` (no panics possible) into an `Outcome`; models the `?`
operator applied to a panic-free callee. -/
def liftE {α : Type} : Except ParseError α → Outcome α
  | .ok a => .ok a
  | .error e => .err e

/-- `HashMap::get` on the association-list model of a registry. -/
def assocGet {T : Type} (k : String) : List (String × T) → Option T
  | [] => none
  | (k2, v) :: rest => if k2 = k then some v else assocGet k rest

/-- Insert-or-replace on the association-list model (`HashMap` `entry` API:
the key keeps a single binding). -/
def assocPut {T : Type} (k : String) (v : T) : List (String × T) → List (String × T)
  | [] => [(k, v)]
  | (k2, v2) :: rest => if k2 = k then (k, v) :: rest else (k2, v2) :: assocPut k v rest

/-- `Vec<String>::join(".")`. -/
def joinDot (l : List String) : String := String.intercalate "." l

/-- Rendering of an `Option<String>` with Rust's `Debug` formatting, used in
the `AmbiguousImport` message. -/
def optDebug : Option String → String
  | none => "None"
  | some s => "Some(\"" ++ s ++ "\")"

/-! ## Generic entity resolver (`context.rs` `Resolver<T>`)

The element registry is an association list `elems : List (String × T)` from
fully-qualified names to elements; `fqn` is the `QualifiedName` trait method of
the element type, used only for the ambiguity message. -/

/-- The `AmbiguousImport` message built by `Resolver::match_one_and_only`. -/
def ambiguousMsg {T : Type} (fqn : T → Option String) (m : T) : String :=
  "symbol " ++ optDebug (fqn m) ++ " resolved to multiple locations from import statements"

/-- `Resolver::match_one_and_only`: zero matches fall through (`Ok(None)`),
exactly one match is returned, two or more raise `AmbiguousImport`. -/
def matchOneAndOnly {T : Type} (fqn : T → Option String) : List T → Except ParseError (Option T)
  | [] => .ok none
  | [m] => .ok (some m)
  | m :: _ :: _ => .error (.AmbiguousImport (ambiguousMsg fqn m))

/-- Rule 1 (`Resolver::lookup_source_namespace`): child match at
`source_ns.join(".") + "." + symbol`. -/
def lookupSourceNamespace {T : Type} (elems : List (String × T)) (symbol : String)
    (sourceNs : List String) : Option T :=
  assocGet (joinDot sourceNs ++ "." ++ symbol) elems

/-- Rule 2 (`Resolver::lookup_root`): the symbol taken as already fully
qualified. -/
def lookupRoot {T : Type} (elems : List (String × T)) (symbol : String) : Option T :=
  assocGet symbol elems

/-- Matches collected by rule 3: for each static import whose last component
equals the symbol, the candidate `source_ns + "." + import.path`. -/
def collectStaticChild {T : Type} (elems : List (String × T)) (symbol : String)
    (sourceNs : List String) (imps : List ImportStmt) : List T :=
  imps.filterMap fun i =>
    match i.components.getLast? with
    | some lastC =>
        if lastC = symbol then
          assocGet (joinDot sourceNs ++ "." ++ joinDot i.components) elems
        else none
    | none => none

/-- Matches collected by rule 4: same import selection as rule 3, candidate
`import.path` alone. -/
def collectStaticQualified {T : Type} (elems : List (String × T)) (symbol : String)
    (imps : List ImportStmt) : List T :=
  imps.filterMap fun i =>
    match i.components.getLast? with
    | some lastC =>
        if lastC = symbol then assocGet (joinDot i.components) elems else none
    | none => none

/-- Matches collected by rule 5: for each wildcard import, the candidate
`source_ns + "." + import.path + "." + symbol`. -/
def collectWildcardChild {T : Type} (elems : List (String × T)) (symbol : String)
    (sourceNs : List String) (imps : List ImportStmt) : List T :=
  imps.filterMap fun i =>
    assocGet (joinDot sourceNs ++ "." ++ joinDot i.components ++ "." ++ symbol) elems

/-- Matches collected by rule 6: for each wildcard import, the candidate
`import.path + "." + symbol`. -/
def collectWildcardQualified {T : Type} (elems : List (String × T)) (symbol : String)
    (imps : List ImportStmt) : List T :=
  imps.filterMap fun i => assocGet (joinDot i.components ++ "." ++ symbol) elems

/-- Rule 3 (`Resolver::lookup_static_import_child`). -/
def lookupStaticImportChild {T : Type} (fqn : T → Option String) (elems : List (String × T))
    (symbol : String) (sourceNs : List String) (imps : List ImportStmt) :
    Except ParseError (Option T) :=
  matchOneAndOnly fqn (collectStaticChild elems symbol sourceNs imps)

/-- Rule 4 (`Resolver::lookup_static_import_qualified`). -/
def lookupStaticImportQualified {T : Type} (fqn : T → Option String) (elems : List (String × T))
    (symbol : String) (imps : List ImportStmt) : Except ParseError (Option T) :=
  matchOneAndOnly fqn (collectStaticQualified elems symbol imps)

/-- Rule 5 (`Resolver::lookup_wildcard_child`). -/
def lookupWildcardChild {T : Type} (fqn : T → Option String) (elems : List (String × T))
    (symbol : String) (sourceNs : List String) (imps : List ImportStmt) :
    Except ParseError (Option T) :=
  matchOneAndOnly fqn (collectWildcardChild elems symbol sourceNs imps)

/-- Rule 6 (`Resolver::lookup_wildcard_qualified`). -/
def lookupWildcardQualified {T : Type} (fqn : T → Option String) (elems : List (String × T))
    (symbol : String) (imps : List ImportStmt) : Except ParseError (Option T) :=
  matchOneAndOnly fqn (collectWildcardQualified elems symbol imps)

/-- The located error produced when no resolution rule matches
(`SrcError::err("All referenced symbols must be defined", ...)`); this is the
failure the specification's taxonomy calls `SymbolNotFound`.  `tyName` is the
short Rust type name of the resolver's element type. -/
def symbolNotFoundErr (tyName : String) (loc : SrcLoc) : ParseError :=
  .SrcError "All referenced symbols must be defined"
    ("this " ++ tyName ++ " could not be resolved") loc

/-- `Resolver::lookup`: the six namespace-resolution rules, tried in order,
returning on the first rule that produces a match.  `imports` is `None` when
no import statements are in effect. -/
def resolverLookup {T : Type} (fqn : T → Option String) (tyName : String)
    (elems : List (String × T)) (symbol : String) (sourceNs : List String)
    (srcLoc : SrcLoc) (imports : Option (List ImportStmt)) : Except ParseError T :=
  match lookupSourceNamespace elems symbol sourceNs with
  | some m => .ok m
  | none =>
  match lookupRoot elems symbol with
  | some m => .ok m
  | none =>
  match imports with
  | none => .error (symbolNotFoundErr tyName srcLoc)
  | some imps =>
    let wilds := imps.filter fun i => i.isWildcard
    let statics := imps.filter fun i => !i.isWildcard
    match lookupStaticImportChild fqn elems symbol sourceNs statics with
    | .error e => .error e
    | .ok (some m) => .ok m
    | .ok none =>
    match lookupStaticImportQualified fqn elems symbol statics with
    | .error e => .error e
    | .ok (some m) => .ok m
    | .ok none =>
    match lookupWildcardChild fqn elems symbol sourceNs wilds with
    | .error e => .error e
    | .ok (some m) => .ok m
    | .ok none =>
    match lookupWildcardQualified fqn elems symbol wilds with
    | .error e => .error e
    | .ok (some m) => .ok m
    | .ok none => .error (symbolNotFoundErr tyName srcLoc)

/-! ## Declarations stored in the context (`ast/*.rs`) -/

/-- The built-in namespace (`context.rs` `SYSTEM_NS`). -/
def SYSTEM_NS : String := "_A2X"

/-- The protected namespace (`context.rs` `PROTECTED_NS`). -/
def PROTECTED_NS : String := "_A2X.PROTECTED"

/-- `ast/typedef.rs` `BOOLEAN_URI`. -/
def BOOLEAN_URI : String := "http://www.w3.org/2001/XMLSchema#boolean"

/-- `ast/typedef.rs` `STRING_URI`. -/
def STRING_URI : String := "http://www.w3.org/2001/XMLSchema#string"

/-- `ast/typedef.rs` `INTEGER_URI`. -/
def INTEGER_URI : String := "http://www.w3.org/2001/XMLSchema#integer"

/-- `ast/typedef.rs` `DOUBLE_URI`. -/
def DOUBLE_URI : String := "http://www.w3.org/2001/XMLSchema#double"

/-- A type definition (`ast/typedef.rs` `TypeDef`). -/
structure TypeDef where
  id : String
  uri : String
  ns : List String
deriving DecidableEq, Repr

/-- `QualifiedName` for `TypeDef`: `ns.join(".") + "." + id`. -/
def TypeDef.fqn (t : TypeDef) : Option String := some (joinDot t.ns ++ "." ++ t.id)

/-- An attribute declaration (`ast/attribute.rs` `Attribute`); `typedef` and
`category` are the ALFA symbols naming its type and category. -/
structure Attribute where
  id : String
  typedef : String
  category : String
  uri : String
  ns : List String
deriving DecidableEq, Repr

/-- `QualifiedName` for `Attribute`. -/
def Attribute.fqn (a : Attribute) : Option String := some (joinDot a.ns ++ "." ++ a.id)

/-- A category declaration (`ast/category.rs` `Category`). -/
structure Category where
  id : String
  uri : String
  ns : List String
deriving DecidableEq, Repr

/-- `QualifiedName` for `Category`. -/
def Category.fqn (c : Category) : Option String := some (joinDot c.ns ++ "." ++ c.id)

/-- One overload of an infix operator (`ast/infix.rs` `InfixSignature`):
a XACML function URI plus the ALFA names of both scalar argument types and
the output type. -/
structure InfixSignature where
  uri : String
  firstArg : String
  secondArg : String
  output : String
deriving DecidableEq, Repr

/-- An infix operator declaration (`ast/infix.rs` `Infix`). -/
structure InfixOp where
  operator : String
  allowBags : Bool
  commutative : Bool
  signatures : List InfixSignature
  ns : List String
  inverse : Option String
deriving DecidableEq, Repr

/-- `QualifiedName` for the infix-operator type. -/
def InfixOp.fqn (i : InfixOp) : Option String := some (joinDot i.ns ++ "." ++ i.operator)

/-- Function output types (`ast/function.rs` `FunctionOutputArg`). -/
inductive FunctionOutputArg where
  | Atomic (t : String)
  | AtomicBag (t : String)
  | AnyAtomicBag
  | AnyAtomic
deriving DecidableEq, Repr

/-- A function declaration (`ast/function.rs` `Function`).  The input
arguments are carried by the source struct but are never consulted by the
conversion paths modelled here (the sources' own TODOs note that argument
checking is not implemented), so they are omitted. -/
structure FunctionDef where
  id : String
  ns : List String
  functionUri : String
  outputArg : FunctionOutputArg
deriving DecidableEq, Repr

/-- `QualifiedName` for `Function`. -/
def FunctionDef.fqn (f : FunctionDef) : Option String := some (joinDot f.ns ++ "." ++ f.id)

/-- A literal constant (`ast/constant.rs` `Constant`).  `custom` is
`Constant::Custom(CustomType { name }, value)`. -/
inductive Constant where
  | str (s : String)
  | intg (s : String)
  | dbl (s : String)
  | boolC (b : Bool)
  | custom (name : String) (value : String)
  | undefined
deriving DecidableEq, Repr

/-- A fully resolved literal (`context.rs` `TypedLiteral`). -/
structure TypedLiteral where
  typeUri : String
  value : String
deriving DecidableEq, Repr

/-- An operator token (`ast/operator.rs` `Operator`). -/
structure Operator where
  ns : List String
  operator : String
deriving DecidableEq, Repr

/-- `Operator::qualified_name`. -/
def Operator.qualifiedName (o : Operator) : String :=
  if o.ns.isEmpty then o.operator else joinDot o.ns ++ "." ++ o.operator

/-- An attribute designator in an expression (`ast/designator.rs`
`AttributeDesignator`); `attrPath` is the struct's `attribute` field, the
qualified name of the attribute (renamed because `attribute` is reserved in
Lean). -/
structure AttributeDesignator where
  attrPath : List String
  issuer : Option String
  mustbepresent : Bool
deriving DecidableEq, Repr

/-- `AttributeDesignator::fully_qualified_name`. -/
def AttributeDesignator.fqName (a : AttributeDesignator) : String := joinDot a.attrPath

/-- A condition expression (`ast/condition.rs` `CondExpression`).  The
`fnCall` constructor inlines `CondFunctionCall { identifier, arguments }` and
`fnRef` inlines `FunctionReference { identifier }`. -/
inductive CondExpression where
  | infixE (e1 : CondExpression) (o : Operator) (e2 : CondExpression)
  | fnCall (identifier : List String) (arguments : List CondExpression)
  | attr (a : AttributeDesignator)
  | fnRef (identifier : List String)
  | lit (c : Constant)
  | empty

/-- A condition (`ast/condition.rs` `Condition`): an expression, the namespace
it appears in, and its source span (the `Weak<Context>` back-reference is made
an explicit argument of the conversion functions). -/
structure Condition where
  condExpr : CondExpression
  ns : List String
  srcLoc : SrcLoc

/-! ## Conversion context (`context.rs` `Context`)

Only the registries and state consulted by the modelled conversion paths are
carried.  Each `lookupX` method passes `SrcLoc::default()` and
`get_imports(source_ns)`, exactly as the corresponding `Context` method does. -/

/-- The registries of the conversion context used during expression and target
conversion. -/
structure Ctx where
  importsMap : List (String × List ImportStmt)
  typedefs : List (String × TypeDef)
  attributes : List (String × Attribute)
  categories : List (String × Category)
  functions : List (String × FunctionDef)
  infixOps : List (String × InfixOp)
deriving Repr

/-- `Context::get_imports`: imports of the lookup's namespace, with the
default (`_A2X`) namespace's imports always appended. -/
def Ctx.getImports (c : Ctx) (sourceNs : List String) : Option (List ImportStmt) :=
  let dflt := assocGet SYSTEM_NS c.importsMap
  match assocGet (joinDot sourceNs) c.importsMap with
  | some atNs => some (atNs ++ dflt.getD [])
  | none => dflt

/-- `Context::lookup_type`. -/
def Ctx.lookupType (c : Ctx) (symbol : String) (sourceNs : List String) :
    Except ParseError TypeDef :=
  resolverLookup TypeDef.fqn "TypeDef" c.typedefs symbol sourceNs defaultLoc
    (c.getImports sourceNs)

/-- `Context::lookup_attribute`. -/
def Ctx.lookupAttribute (c : Ctx) (symbol : String) (sourceNs : List String) :
    Except ParseError Attribute :=
  resolverLookup Attribute.fqn "Attribute" c.attributes symbol sourceNs defaultLoc
    (c.getImports sourceNs)

/-- `Context::lookup_category`. -/
def Ctx.lookupCategory (c : Ctx) (symbol : String) (sourceNs : List String) :
    Except ParseError Category :=
  resolverLookup Category.fqn "Category" c.categories symbol sourceNs defaultLoc
    (c.getImports sourceNs)

/-- `Context::lookup_function`. -/
def Ctx.lookupFunction (c : Ctx) (symbol : String) (sourceNs : List String) :
    Except ParseError FunctionDef :=
  resolverLookup FunctionDef.fqn "Function" c.functions symbol sourceNs defaultLoc
    (c.getImports sourceNs)

/-- `Context::lookup_infix`. -/
def Ctx.lookupInfixOp (c : Ctx) (symbol : String) (sourceNs : List String) :
    Except ParseError InfixOp :=
  resolverLookup InfixOp.fqn "Infix" c.infixOps symbol sourceNs defaultLoc
    (c.getImports sourceNs)

/-- `Context::lookup_infix_inverse`: resolve the operator, then resolve its
declared inverse symbol from the same location; an operator with no declared
inverse raises `InverseInfixNotFound`. -/
def Ctx.lookupInfixInverse (c : Ctx) (symbol : String) (sourceNs : List String) :
    Except ParseError InfixOp := do
  let i ← c.lookupInfixOp symbol sourceNs
  match i.inverse with
  | some invSym => c.lookupInfixOp invSym sourceNs
  | none => .error .InverseInfixNotFound

/-- `Context::constant_to_typedliteral`: literal constants map to the built-in
type URIs; a custom-typed constant resolves its type name through the typedef
resolver. -/
def Ctx.constantToTypedLiteral (c : Ctx) (k : Constant) (sourceNs : List String) :
    Except ParseError TypedLiteral :=
  match k with
  | .str s => .ok ⟨STRING_URI, s⟩
  | .intg s => .ok ⟨INTEGER_URI, s⟩
  | .dbl s => .ok ⟨DOUBLE_URI, s⟩
  | .boolC b => .ok ⟨BOOLEAN_URI, if b then "true" else "false"⟩
  | .custom name value => do
      let t ← c.lookupType name sourceNs
      .ok ⟨t.uri, value⟩
  | .undefined => .error .AstConvertError

/-! ## Resolved expression types (`xacml/xcondition.rs`) -/

/-- `xcondition.rs` `ResolvedAtomicName`: a XACML type URI. -/
structure ResolvedAtomicName where
  uri : String
deriving DecidableEq, Repr

/-- `xcondition.rs` `FunctionTypeResolved`. -/
inductive FunctionTypeResolved where
  | Atomic (n : ResolvedAtomicName)
  | AtomicBag (n : ResolvedAtomicName)
  | AnyAtomicBag
  | AnyAtomic
deriving DecidableEq, Repr

/-- `FunctionTypeResolved::is_bag`. -/
def FunctionTypeResolved.isBag : FunctionTypeResolved → Bool
  | .Atomic _ | .AnyAtomic => false
  | .AtomicBag _ | .AnyAtomicBag => true

/-- `xcondition.rs` `resolve_literal_types`: built-in literals resolve to the
built-in URIs; a custom-typed literal whose type name resolves hits the
source's `todo!("resolve custom types")`, i.e. a panic; one that does not
resolve yields `None`. -/
def resolveLiteralTypes (k : Constant) (sourceNs : List String) (c : Ctx) :
    Outcome (Option ResolvedAtomicName) :=
  match k with
  | .str _ => .ok (some ⟨STRING_URI⟩)
  | .intg _ => .ok (some ⟨INTEGER_URI⟩)
  | .dbl _ => .ok (some ⟨DOUBLE_URI⟩)
  | .boolC _ => .ok (some ⟨BOOLEAN_URI⟩)
  | .custom name _ =>
      match c.lookupType name sourceNs with
      | .error _ => .ok none
      | .ok _ => .panic "resolve custom types"
  | .undefined => .ok none

/-- `xcondition.rs` `check_infix_sign_compat`: an atomic operand must equal
the signature's declared argument type URI; a bag operand passes the check
without its element type being compared; an `AnyAtomic`/`AnyAtomicBag` first
operand hits the source's `panic!`. -/
def checkInfixSignCompat (_inf : InfixOp) (firstArgType secondArgType : FunctionTypeResolved)
    (sigFirstType sigSecondType : String) (_sig : InfixSignature) : Outcome Bool :=
  match firstArgType with
  | .Atomic n =>
      if n.uri ≠ sigFirstType then .ok false
      else
        match secondArgType with
        | .Atomic n2 => if n2.uri ≠ sigSecondType then .ok false else .ok true
        | _ => .ok true
  | .AtomicBag _ =>
      match secondArgType with
      | .Atomic n2 => if n2.uri ≠ sigSecondType then .ok false else .ok true
      | _ => .ok true
  | _ => .panic "AnyAtomicBag/AnyAtomic are not valid arguments to an infix operator."

/-- The signature scan shared by `sig_and_type_for_infix` and
`resolve_infix_signature`: walk the declared signatures in order, resolving
each signature's argument and output type names, and return the first
compatible one (`Ok(None)` when the list is exhausted). -/
def findCompatSig (c : Ctx) (inf : InfixOp) (t1 t2 : FunctionTypeResolved) :
    List InfixSignature → Outcome (Option InfixSignature)
  | [] => .ok none
  | s :: rest => do
      let ft ← liftE (c.lookupType s.firstArg inf.ns)
      let st ← liftE (c.lookupType s.secondArg inf.ns)
      let _ot ← liftE (c.lookupType s.output inf.ns)
      let compat ← checkInfixSignCompat inf t1 t2 ft.uri st.uri s
      if compat then .ok (some s) else findCompatSig c inf t1 t2 rest

/-- `xcondition.rs` `resolve_infix_signature`: the first compatible declared
signature, or `InfixNoMatchingSignature`. -/
def resolveInfixSignature (inf : InfixOp) (t1 t2 : FunctionTypeResolved) (c : Ctx) :
    Outcome InfixSignature := do
  match ← findCompatSig c inf t1 t2 inf.signatures with
  | some s => .ok s
  | none => .err .InfixNoMatchingSignature

/-- The signature-and-output-type computation of `sig_and_type_for_infix`
after the operand types are known: first compatible signature plus its output
type resolved to an atomic URI (no compatible signature is
`ParseError::AstConvertError` there). -/
def sigAndTypeForInfixRes (c : Ctx) (inf : InfixOp) (t1 t2 : FunctionTypeResolved) :
    Outcome (InfixSignature × FunctionTypeResolved) := do
  match ← findCompatSig c inf t1 t2 inf.signatures with
  | some sig => do
      let outputType ← liftE (c.lookupType sig.output inf.ns)
      .ok (sig, .Atomic ⟨outputType.uri⟩)
  | none => .err .AstConvertError

/-- `xcondition.rs` `type_for_expr`: the fully-resolved type of a condition
expression. -/
def typeForExpr (c : Ctx) (sourceNs : List String) :
    CondExpression → Outcome FunctionTypeResolved
  | .infixE e1 o e2 => do
      let inf ← liftE (c.lookupInfixOp o.qualifiedName sourceNs)
      let t1 ← typeForExpr c sourceNs e1
      let t2 ← typeForExpr c sourceNs e2
      let (_sig, tres) ← sigAndTypeForInfixRes c inf t1 t2
      .ok tres
  | .lit k =>
      match resolveLiteralTypes k sourceNs c with
      | .panic m => .panic m
      | .err e => .err e
      | .ok none => .err .AstConvertError
      | .ok (some n) => .ok (.Atomic n)
  | .attr ad => do
      let a ← liftE (c.lookupAttribute ad.fqName sourceNs)
      let td ← liftE (c.lookupType a.typedef [joinDot a.ns])
      .ok (.AtomicBag ⟨td.uri⟩)
  | .fnCall idf _args => do
      let f ← liftE (c.lookupFunction (joinDot idf) sourceNs)
      match f.outputArg with
      | .Atomic a => do
          let td ← liftE (c.lookupType a f.ns)
          .ok (.Atomic ⟨td.uri⟩)
      | .AtomicBag a => do
          let td ← liftE (c.lookupType a f.ns)
          .ok (.AtomicBag ⟨td.uri⟩)
      | .AnyAtomic => .ok .AnyAtomic
      | .AnyAtomicBag => .ok .AnyAtomicBag
  | .fnRef _ => .err .AstConvertError
  | .empty => .err .AstConvertError

/-! ## XACML expressions (`xacml/xexpression.rs` and friends) -/

/-- An XACML attribute designator element (`xacml/xattr_designator.rs`
`XAttrDesignator`). -/
structure XAttrDesignator where
  uri : String
  category : String
  typeUri : String
  mustBePresent : Bool
  issuer : Option String
deriving DecidableEq, Repr

/-- A fully resolved XACML expression (`xacml/xexpression.rs` `XExpression`):
`value` is `XExpression::Value(XAttrValue)`, `funcRef` is
`XExpression::Function(XFunction)`, `applyX` is `XExpression::Apply(XApply)`
with its function URI, arguments and return type, and `attrib` is
`XExpression::Attrib`. -/
inductive XExpression where
  | value (v : TypedLiteral)
  | funcRef (functionUri : String)
  | applyX (functionUri : String) (arguments : List XExpression)
      (returnType : FunctionTypeResolved)
  | attrib (d : XAttrDesignator)

/-- The fixed URI used for bag lifting. -/
def anyOfAnyUri : String := "urn:oasis:names:tc:xacml:3.0:function:any-of-any"

/-- `xcondition.rs` `fn_output_to_resolved`: resolve a function's declared
output type to a XACML URI (looked up from the function's own namespace). -/
def fnOutputToResolved (fnOut : FunctionOutputArg) (sourceNs : List String) (c : Ctx) :
    Outcome FunctionTypeResolved :=
  match fnOut with
  | .Atomic a => do
      let t ← liftE (c.lookupType a sourceNs)
      .ok (.Atomic ⟨t.uri⟩)
  | .AtomicBag a => do
      let t ← liftE (c.lookupType a sourceNs)
      .ok (.AtomicBag ⟨t.uri⟩)
  | .AnyAtomicBag => .ok .AnyAtomicBag
  | .AnyAtomic => .ok .AnyAtomic

/-- `xcondition.rs` `create_infix_apply`: scalar application when neither
argument is a bag; otherwise `any-of-any(scalarFunction, args...)` when the
operator allows bags and the signature's output is boolean;
`InfixBagsBooleanRequired` / `InfixBagsDisallowed` otherwise. -/
def createInfixApply (sig : InfixSignature) (args : List XExpression)
    (firstArgType secondArgType : FunctionTypeResolved) (inf : InfixOp) (c : Ctx) :
    Outcome XExpression := do
  let isArg1Bag := firstArgType.isBag
  let isArg2Bag := secondArgType.isBag
  let outputTypedef ← liftE (c.lookupType sig.output inf.ns)
  let outputTyperes := FunctionTypeResolved.Atomic ⟨outputTypedef.uri⟩
  if !isArg1Bag && !isArg2Bag then
    .ok (.applyX sig.uri args outputTyperes)
  else
    if inf.allowBags then
      if outputTypedef.uri = BOOLEAN_URI then
        .ok (.applyX anyOfAnyUri (XExpression.funcRef sig.uri :: args) outputTyperes)
      else
        .err .InfixBagsBooleanRequired
    else
      .err .InfixBagsDisallowed

mutual

/-- `xcondition.rs` `expr_to_xexpr` (together with its `handle_*` helpers):
convert a condition expression to a XACML expression. -/
def exprToXExpr (c : Ctx) (sourceNs : List String) :
    CondExpression → Outcome XExpression
  | .infixE e1 o e2 => do
      let inf ← liftE (c.lookupInfixOp o.qualifiedName sourceNs)
      let t1 ← typeForExpr c sourceNs e1
      let t2 ← typeForExpr c sourceNs e2
      let sig ← resolveInfixSignature inf t1 t2 c
      let x1 ← exprToXExpr c sourceNs e1
      let x2 ← exprToXExpr c sourceNs e2
      createInfixApply sig [x1, x2] t1 t2 inf c
  | .lit k => do
      let tl ← liftE (c.constantToTypedLiteral k sourceNs)
      .ok (.value tl)
  | .fnRef idf => do
      let f ← liftE (c.lookupFunction (joinDot idf) sourceNs)
      .ok (.funcRef f.functionUri)
  | .fnCall idf args => do
      let f ← liftE (c.lookupFunction (joinDot idf) sourceNs)
      let xargs ← exprListToXExpr c sourceNs args
      let rt ← fnOutputToResolved f.outputArg f.ns c
      .ok (.applyX f.functionUri xargs rt)
  | .attr ad => do
      let a ← liftE (c.lookupAttribute ad.fqName sourceNs)
      let td ← liftE (c.lookupType a.typedef a.ns)
      let cat ← liftE (c.lookupCategory a.category a.ns)
      .ok (.attrib ⟨a.uri, cat.uri, td.uri, ad.mustbepresent, ad.issuer⟩)
  | .empty => .err .AstConvertError

/-- Argument conversion loop of `handle_function_call`. -/
def exprListToXExpr (c : Ctx) (sourceNs : List String) :
    List CondExpression → Outcome (List XExpression)
  | [] => .ok []
  | a :: rest => do
      let x ← exprToXExpr c sourceNs a
      let xs ← exprListToXExpr c sourceNs rest
      .ok (x :: xs)

end

/-- An XACML `<Condition>` (`xacml/xcondition.rs` `XCondition`). -/
structure XCondition where
  expr : XExpression

/-- `impl TryFrom<&Condition> for XCondition`: gate on the expression's
resolved type being exactly atomic boolean, then convert the expression.
A type-resolution `ParseError` is discarded by `.ok()` (a panic still
propagates), leading to the non-atomic error branch. -/
def xconditionOfCondition (c : Ctx) (cond : Condition) : Outcome XCondition :=
  match typeForExpr c cond.ns cond.condExpr with
  | .panic m => .panic m
  | t =>
    let topt : Option FunctionTypeResolved :=
      match t with
      | .ok v => some v
      | _ => none
    match topt with
    | some (.Atomic n) =>
        if n.uri ≠ BOOLEAN_URI then
          .err (.SrcError "Conditions must evaluate to booleans"
            ("type is " ++ "\"" ++ n.uri ++ "\"") cond.srcLoc)
        else do
          let e ← exprToXExpr c cond.ns cond.condExpr
          .ok ⟨e⟩
    | _ =>
        .err (.SrcError "Conditions must evaluate to atomic booleans"
          "non-atomic type" cond.srcLoc)

/-! ## Target matches (`ast/target.rs`, `xacml/xtarget.rs`) -/

/-- A function-style target match (`ast/target.rs` `MatchFunction`). -/
structure MatchFunction where
  functionId : List String
  literal : Constant
  attrPath : List String
  issuer : Option String
  mustbepresent : Bool
deriving DecidableEq, Repr

/-- An operator-style target match (`ast/target.rs` `MatchOperation`);
`reversed` is true when the source text had the attribute before the literal,
the reverse of the order the XACML function expects. -/
structure MatchOperation where
  attrPath : List String
  operator : Operator
  literal : Constant
  reversed : Bool
  issuer : Option String
  mustbepresent : Bool
deriving DecidableEq, Repr

/-- A target match (`ast/target.rs` `Match`). -/
inductive MatchT where
  | matchFunc (mf : MatchFunction)
  | matchOp (mo : MatchOperation)
deriving DecidableEq, Repr

/-- A XACML `<Match>` element (`xacml/xtarget.rs` `XMatch`). -/
structure XMatch where
  matchid : String
  value : String
  valueType : String
  designatorId : String
  designatorCategory : String
  designatorType : String
  mustBePresent : Bool
  issuer : Option String
deriving DecidableEq, Repr

/-- The signature scan at the end of the `MatchOp` branch of
`match_to_xmatch`: the first declared signature whose first argument type
matches the literal, whose second argument type matches the attribute, and
whose output is boolean; exhaustion is `ParseError::AstConvertError`. -/
def scanTargetSigs (c : Ctx) (inf : InfixOp) (tl : TypedLiteral) (attrType : String)
    (a : Attribute) (cat : Category) (mo : MatchOperation) :
    List InfixSignature → Except ParseError XMatch
  | [] => .error .AstConvertError
  | s :: rest => do
      let firstType ← c.lookupType s.firstArg inf.ns
      let secondType ← c.lookupType s.secondArg inf.ns
      let outputType ← c.lookupType s.output inf.ns
      if firstType.uri = tl.typeUri ∧ secondType.uri = attrType ∧
          outputType.uri = BOOLEAN_URI then
        .ok ⟨s.uri, tl.value, tl.typeUri, a.uri, cat.uri, attrType,
          mo.mustbepresent, mo.issuer⟩
      else
        scanTargetSigs c inf tl attrType a cat mo rest

/-- The remainder of the `MatchOp` branch of `match_to_xmatch` once the infix
operator to use has been determined: resolve the attribute, its type and
category, and scan the chosen operator's signatures. -/
def matchOpFinish (c : Ctx) (mo : MatchOperation) (sourceNs : List String)
    (tl : TypedLiteral) (inf : InfixOp) : Except ParseError XMatch := do
  let a ← c.lookupAttribute (joinDot mo.attrPath) sourceNs
  let attrType ← c.lookupType a.typedef a.ns
  let cat ← c.lookupCategory a.category a.ns
  scanTargetSigs c inf tl attrType.uri a cat mo inf.signatures

/-- `xacml/xtarget.rs` `match_to_xmatch`: convert one parsed target match to
a XACML `<Match>`.  In the `MatchOp` branch, reversed operand order is
repaired by keeping a commutative operator, substituting a declared inverse,
or failing with `ReversedInfixArgsNotCommutativeError`. -/
def matchToXMatch (m : MatchT) (sourceNs : List String) (c : Ctx) :
    Except ParseError XMatch :=
  match m with
  | .matchFunc mf => do
      let f ← c.lookupFunction (joinDot mf.functionId) sourceNs
      let tl ← c.constantToTypedLiteral mf.literal sourceNs
      let a ← c.lookupAttribute (joinDot mf.attrPath) sourceNs
      let cat ← c.lookupCategory a.category a.ns
      let attrType ← c.lookupType a.typedef a.ns
      .ok ⟨f.functionUri, tl.value, tl.typeUri, a.uri, cat.uri, attrType.uri,
        mf.mustbepresent, mf.issuer⟩
  | .matchOp mo => do
      let tl ← c.constantToTypedLiteral mo.literal sourceNs
      let sourceInf ← c.lookupInfixOp mo.operator.qualifiedName sourceNs
      let inf ←
        if mo.reversed then
          if sourceInf.commutative then .ok sourceInf
          else if sourceInf.inverse.isSome then
            c.lookupInfixInverse mo.operator.qualifiedName sourceNs
          else .error .ReversedInfixArgsNotCommutativeError
        else .ok sourceInf
      matchOpFinish c mo sourceNs tl inf

/-! ## Policies, policy sets, and the deconditioning transform
(`ast/naming.rs`, `ast/rule.rs`, `ast/policy.rs`, `ast/policyset.rs`)

A Generated Name Path (`GenName`) is modelled as the list of its slot values;
the deconditioning and finalization paths verified here never refill an
already-shared slot, so value semantics agree with the source's
`Rc<RefCell<Option<String>>>` slots on these paths. -/

/-- `ast/naming.rs` `GenName`: the ordered chain of name slots, outermost
enclosing element first. -/
abbrev GenName : Type := List (Option String)

/-- `GenName::policy_level` (the length of the path). -/
def GenName.policyLevel (g : GenName) : Nat := List.length g

/-- `GenName::last_elem`. -/
def GenName.lastElem (g : GenName) : Option (Option String) := List.getLast? g

/-- `GenName::push_name_at_index`, i.e. `Vec::insert(idx, elem)`: panics when
the index exceeds the length. -/
def GenName.insertAt (g : GenName) (idx : Nat) (s : Option String) : Outcome GenName :=
  if idx ≤ List.length g then
    .ok (List.take idx g ++ s :: List.drop idx g)
  else
    .panic "insertion index out of bounds"

/-- A conjunctive sequence of matches (`ast/target.rs` `ConjunctiveSeq`);
`matchList` is the struct's `matches` field (renamed: `matches` is reserved in
Lean). -/
structure ConjunctiveSeq where
  matchList : List MatchT
deriving DecidableEq, Repr

/-- A disjunctive sequence (`ast/target.rs` `DisjunctiveSeq`). -/
structure DisjunctiveSeq where
  statements : List ConjunctiveSeq
deriving DecidableEq, Repr

/-- A target (`ast/target.rs` `Target`); its `Weak<Context>` back reference is
passed explicitly to conversion functions. -/
structure Target where
  clauses : List DisjunctiveSeq
  ns : List String
deriving DecidableEq, Repr

/-- Rule effect (`ast/rule.rs` `Effect`). -/
inductive Effect where
  | Permit
  | Deny
deriving DecidableEq, Repr

/-- An obligation/advice block (`ast/prescription.rs` `Prescription`).  Its
contents are never inspected by the modelled paths, which only move the
(empty) prescription lists around, so it is modelled as an opaque token. -/
inductive Prescription where
  | mk
deriving DecidableEq, Repr

/-- A rule definition (`ast/rule.rs` `RuleDef`), without the `Weak<Context>`
back-reference. -/
structure RuleDef where
  id : Option String
  ns : List String
  policyNs : GenName
  description : Option String
  effect : Effect
  target : Option Target
  condition : Option Condition
  prescriptions : List Prescription

/-- A rule entry in a policy (`ast/rule.rs` `RuleEntry`): an inline definition
or a reference. -/
inductive RuleEntry where
  | defn (r : RuleDef)
  | ref (id : String) (ns : List String)

/-- Policy identifier (`ast/policy.rs` `PolicyId`). -/
inductive PolicyId where
  | PolicyNoName
  | PolicyName (name : String)
  | PolicyNameAndId (name : String) (uri : String)
deriving DecidableEq, Repr

/-- A policy (`ast/policy.rs` `Policy`), without the `Rc<Context>` back
reference; `applyAlg` is the rule-combining-algorithm symbol of the `apply`
statement. -/
structure Policy where
  id : PolicyId
  ns : List String
  policyNs : GenName
  description : Option String
  target : Option Target
  condition : Option Condition
  applyAlg : String
  rules : List RuleEntry
  prescriptions : List Prescription

mutual

/-- A policy set (`ast/policyset.rs` `PolicySet`), without the `Rc<Context>`
back reference; `applyAlg` is the policy-combining-algorithm symbol. -/
inductive PolicySet where
  | mk (id : PolicyId) (ns : List String) (policyNs : GenName)
      (description : Option String) (target : Option Target)
      (condition : Option Condition) (applyAlg : String)
      (policies : List PolicyEntry) (prescriptions : List Prescription)

/-- An entry of a policy set (`ast/policyset.rs` `PolicyEntry`). -/
inductive PolicyEntry where
  | ref (id : String) (ns : List String)
  | policy (p : Policy)
  | policyset (ps : PolicySet)

end

/-- Field accessor: identifier. -/
def PolicySet.id : PolicySet → PolicyId
  | .mk i _ _ _ _ _ _ _ _ => i

/-- Field accessor: namespace. -/
def PolicySet.ns : PolicySet → List String
  | .mk _ n _ _ _ _ _ _ _ => n

/-- Field accessor: Generated Name Path. -/
def PolicySet.policyNs : PolicySet → GenName
  | .mk _ _ g _ _ _ _ _ _ => g

/-- Field accessor: description. -/
def PolicySet.description : PolicySet → Option String
  | .mk _ _ _ d _ _ _ _ _ => d

/-- Field accessor: target. -/
def PolicySet.target : PolicySet → Option Target
  | .mk _ _ _ _ t _ _ _ _ => t

/-- Field accessor: condition. -/
def PolicySet.condition : PolicySet → Option Condition
  | .mk _ _ _ _ _ c _ _ _ => c

/-- Field accessor: combining-algorithm symbol. -/
def PolicySet.applyAlg : PolicySet → String
  | .mk _ _ _ _ _ _ a _ _ => a

/-- Field accessor: child entries. -/
def PolicySet.policies : PolicySet → List PolicyEntry
  | .mk _ _ _ _ _ _ _ p _ => p

/-- Field accessor: prescriptions. -/
def PolicySet.prescriptions : PolicySet → List Prescription
  | .mk _ _ _ _ _ _ _ _ pr => pr

/-- `Policy::insert_ns_entry`: insert a slot at an index of the policy's own
Generated Name Path. -/
def Policy.insertNsEntry (p : Policy) (name : Option String) (idx : Nat) : Outcome Policy := do
  let g ← p.policyNs.insertAt idx name
  .ok { p with policyNs := g }

mutual

/-- `PolicySet::insert_ns_entry`: insert the slot into the policy set's own
path and, recursively, into every child's (a `PolicyEntry::Ref` child hits the
source's `todo!`). -/
def PolicySet.insertNsEntryM (ps : PolicySet) (name : Option String) (idx : Nat) :
    Outcome PolicySet :=
  match ps with
  | .mk i n g d t c a pols pr => do
      let g' ← GenName.insertAt g idx name
      let pols' ← insertNsEntryList pols name idx
      .ok (.mk i n g' d t c a pols' pr)

/-- The recursion of `PolicySet::insert_ns_entry` over child entries. -/
def insertNsEntryList (l : List PolicyEntry) (name : Option String) (idx : Nat) :
    Outcome (List PolicyEntry) :=
  match l with
  | [] => .ok []
  | .policy p :: rest => do
      let p' ← p.insertNsEntry name idx
      let rest' ← insertNsEntryList rest name idx
      .ok (.policy p' :: rest')
  | .policyset ps :: rest => do
      let ps' ← ps.insertNsEntryM name idx
      let rest' ← insertNsEntryList rest name idx
      .ok (.policyset ps' :: rest')
  | .ref _ _ :: _ => .panic "unexpected type of policy entry"

end

/-- The synthetic "cond" guard policy built by both decondition entry points:
one Permit rule, no target, the original condition, combining algorithm
`permitOverrides` from the protected namespace. -/
def condPolicyOf (ns : List String) (base : GenName) (cond : Condition) : Policy :=
  let condrule : RuleDef :=
    { id := none, ns := ns, policyNs := base ++ [some "cond"], description := none,
      effect := .Permit, target := none, condition := some cond, prescriptions := [] }
  { id := .PolicyName "cond", ns := ns, policyNs := base ++ [some "cond"],
    description := none, target := none, condition := none,
    applyAlg := PROTECTED_NS ++ "." ++ "permitOverrides",
    rules := [.defn condrule], prescriptions := [] }

/-- The renamed "orig" copy of a conditioned policy: same target, rules and
algorithm, with the condition and description removed (both were moved out)
and the "orig" slot appended to its Generated Name Path. -/
def Policy.origCopy (p : Policy) : Policy :=
  { p with
    id := .PolicyName "orig", policyNs := p.policyNs ++ [some "orig"],
    description := none, condition := none }

/-- `Policy::decondition` (`ast/policy.rs`): wrap a conditioned policy in a
condition-free `PolicySet` guarded by a synthetic "cond" policy. -/
def Policy.decondition (p : Policy) : Except ParseError PolicySet :=
  match p.condition with
  | none => .error .PolicyNoCondition
  | some cond =>
    .ok (.mk p.id p.ns p.policyNs p.description none none
      (PROTECTED_NS ++ "." ++ "onPermitApplySecond")
      [.policy (condPolicyOf p.ns p.policyNs cond), .policy p.origCopy] [])

/-- `PolicySet::decondition` (`ast/policyset.rs`): wrap a conditioned policy
set in a condition-free `PolicySet` guarded by a synthetic "cond" policy,
threading an "orig" slot into every descendant's Generated Name Path. -/
def PolicySet.decondition (ps : PolicySet) : Outcome PolicySet :=
  match ps.condition with
  | none => .err .PolicySetNoCondition
  | some cond => do
    let origPolicyNs : GenName := ps.policyNs ++ [some "orig"]
    let idx := origPolicyNs.policyLevel - 1
    let newPolicies ← insertNsEntryList ps.policies (some "orig") idx
    let original : PolicySet :=
      .mk (.PolicyName "orig") ps.ns origPolicyNs none ps.target none
        ps.applyAlg newPolicies ps.prescriptions
    .ok (.mk ps.id ps.ns ps.policyNs ps.description none none
      (PROTECTED_NS ++ "." ++ "onPermitApplySecond")
      [.policy (condPolicyOf ps.ns ps.policyNs cond), .policyset original] [])

/-! ## Identifier finalization (`Policy::finalize_id`, `PolicySet::finalize_id`)

`format!("policy_{n}")` renders the counter value in decimal; `natDecCore`
mirrors the accumulator loop of the runtime's decimal formatter
(fuel-structural, with fuel `n + 1` always sufficient). -/

/-- One step of decimal rendering: prepend the digits of `n` (most significant
first) to `ds`; `fuel` bounds the division chain. -/
def natDecCore : Nat → Nat → List Char → List Char
  | 0, _, ds => ds
  | f + 1, n, ds =>
      if n < 10 then Nat.digitChar n :: ds
      else natDecCore f (n / 10) (Nat.digitChar (n % 10) :: ds)

/-- Decimal rendering of a natural number, as `format!("{n}")` prints it. -/
def natDec (n : Nat) : String := ⟨natDecCore (n + 1) n []⟩

/-- The generated-name candidate `policy_<n>`. -/
def policyCandidate (n : Nat) : String := "policy_" ++ natDec n

/-- The generated-name candidate `policyset_<n>`. -/
def policysetCandidate (n : Nat) : String := "policyset_" ++ natDec n

/-- The context state consulted and mutated by identifier finalization:
per-namespace id counters, the Policy and PolicySet registries (each element
stored under and modelled by its fully-qualified name), and the import map. -/
structure NamingState where
  importsMap : List (String × List ImportStmt)
  policyElems : List (String × String)
  policysetElems : List (String × String)
  policyIds : List (String × Nat)
  policysetIds : List (String × Nat)
deriving DecidableEq, Repr

/-- `Context::get_imports` as used during finalization. -/
def NamingState.getImports (st : NamingState) (sourceNs : List String) :
    Option (List ImportStmt) :=
  let dflt := assocGet SYSTEM_NS st.importsMap
  match assocGet (joinDot sourceNs) st.importsMap with
  | some atNs => some (atNs ++ dflt.getD [])
  | none => dflt

/-- `Context::get_next_policy_id`: `entry(ns).and_modify(|e| *e += 1)
.or_insert(0)` — first draw is 0, later draws increment. -/
def NamingState.getNextPolicyId (st : NamingState) (ns : String) : Nat × NamingState :=
  match assocGet ns st.policyIds with
  | none => (0, { st with policyIds := assocPut ns 0 st.policyIds })
  | some v => (v + 1, { st with policyIds := assocPut ns (v + 1) st.policyIds })

/-- `Context::get_next_policyset_id`. -/
def NamingState.getNextPolicysetId (st : NamingState) (ns : String) : Nat × NamingState :=
  match assocGet ns st.policysetIds with
  | none => (0, { st with policysetIds := assocPut ns 0 st.policysetIds })
  | some v => (v + 1, { st with policysetIds := assocPut ns (v + 1) st.policysetIds })

/-- `Context::lookup_policy`: full six-rule resolution on the Policy
registry. -/
def NamingState.lookupPolicy (st : NamingState) (symbol : String) (sourceNs : List String) :
    Except ParseError String :=
  resolverLookup some "Policy" st.policyElems symbol sourceNs defaultLoc
    (st.getImports sourceNs)

/-- Is a lookup result a success?  (`Result::is_err` negated.) -/
def exceptIsOk {α : Type} : Except ParseError α → Bool
  | .ok _ => true
  | .error _ => false

/-- The retry loop of `Policy::finalize_id`: draw the namespace's next policy
id, build `policy_<n>`, and accept it unless `lookup_policy` finds an existing
registration.  `none` means the fuel ran out before a free candidate was
found. -/
def finalizePolicyLoop (fuel : Nat) (st : NamingState) (ns : List String) :
    Option (NamingState × String) :=
  match fuel with
  | 0 => none
  | f + 1 =>
      let (nextId, st1) := st.getNextPolicyId (joinDot ns)
      let proposed := policyCandidate nextId
      if exceptIsOk (st1.lookupPolicy proposed ns) then
        finalizePolicyLoop f st1 ns
      else
        some (st1, proposed)

/-- The retry loop of `PolicySet::finalize_id`: draw the next policyset id,
build `policyset_<n>`, and check the candidate with `lookup_policy` (the
Policy registry — this is what the source does). -/
def finalizePolicySetLoop (fuel : Nat) (st : NamingState) (ns : List String) :
    Option (NamingState × String) :=
  match fuel with
  | 0 => none
  | f + 1 =>
      let (nextId, st1) := st.getNextPolicysetId (joinDot ns)
      let proposed := policysetCandidate nextId
      if exceptIsOk (st1.lookupPolicy proposed ns) then
        finalizePolicySetLoop f st1 ns
      else
        some (st1, proposed)

/-- `Policy::finalize_id` on a policy with namespace `ns` and Generated Name
Path `g`: a panic on an empty path, a no-op when the last slot is already
filled, and otherwise the retry loop fills the last slot.  The outer `none`
marks insufficient fuel (the source loop is unbounded). -/
def finalizePolicyId (fuel : Nat) (st : NamingState) (ns : List String) (g : GenName) :
    Option (Outcome (NamingState × GenName)) :=
  match g.lastElem with
  | none => some (.panic "policy with empty policy namespace")
  | some (some _) => some (.ok (st, g))
  | some none =>
      (finalizePolicyLoop fuel st ns).map fun r =>
        .ok (r.1, List.dropLast g ++ [some r.2])

/-- `PolicySet::finalize_id`, analogously. -/
def finalizePolicySetId (fuel : Nat) (st : NamingState) (ns : List String) (g : GenName) :
    Option (Outcome (NamingState × GenName)) :=
  match g.lastElem with
  | none =>
      some (.panic "policyset namespace was empty, should have at least itself as a member")
  | some (some _) => some (.ok (st, g))
  | some none =>
      (finalizePolicySetLoop fuel st ns).map fun r =>
        .ok (r.1, List.dropLast g ++ [some r.2])

/-! ## Helper lemmas: decimal rendering is injective -/

/-- Numeric value of a decimal digit character. -/
def decCharVal (ch : Char) : Nat := ch.toNat - 48

/-- Parse a most-significant-first digit list back to a number. -/
def decToNat (l : List Char) : Nat := l.foldl (fun a ch => a * 10 + decCharVal ch) 0

/-- Number of decimal digits. -/
def digLen (n : Nat) : Nat :=
  if _h : n < 10 then 1 else digLen (n / 10) + 1
decreasing_by exact Nat.div_lt_self (by omega) (by omega)

theorem decCharVal_digitChar : ∀ d, d < 10 → decCharVal (Nat.digitChar d) = d := by decide

theorem natDecCore_foldl : ∀ (f n : Nat) (ds : List Char) (a : Nat), n < 10 ^ (f + 1) →
    List.foldl (fun a ch => a * 10 + decCharVal ch) a (natDecCore (f + 1) n ds) =
      List.foldl (fun a ch => a * 10 + decCharVal ch) (a * 10 ^ digLen n + n) ds := by
  intro f
  induction f with
  | zero =>
    intro n ds a h
    have hn : n < 10 := by simpa using h
    rw [natDecCore, if_pos hn, digLen, dif_pos hn]
    simp only [List.foldl]
    rw [decCharVal_digitChar n hn, pow_one]
  | succ f ih =>
    intro n ds a h
    by_cases hn : n < 10
    · rw [natDecCore, if_pos hn, digLen, dif_pos hn]
      simp only [List.foldl]
      rw [decCharVal_digitChar n hn, pow_one]
    · rw [natDecCore, if_neg hn]
      have hdiv : n / 10 < 10 ^ (f + 1) := by
        refine (Nat.div_lt_iff_lt_mul (by norm_num)).2 ?_
        calc n < 10 ^ (f + 2) := h
          _ = 10 ^ (f + 1) * 10 := by rw [pow_succ]
      rw [ih (n / 10) (Nat.digitChar (n % 10) :: ds) a hdiv]
      simp only [List.foldl]
      rw [decCharVal_digitChar _ (Nat.mod_lt n (by norm_num))]
      have hd : digLen n = digLen (n / 10) + 1 := by
        rw [digLen, dif_neg hn]
      rw [hd]
      have hdm : n / 10 * 10 + n % 10 = n := by omega
      have harith : (a * 10 ^ digLen (n / 10) + n / 10) * 10 + n % 10 =
          a * (10 ^ digLen (n / 10) * 10) + (n / 10 * 10 + n % 10) := by ring
      rw [harith, hdm, ← pow_succ]

theorem decToNat_natDec (n : Nat) : decToNat (natDec n).data = n := by
  have hlt : n < 10 ^ (n + 1) := by
    calc n < 10 ^ n := Nat.lt_pow_self (by norm_num) n
      _ ≤ 10 ^ (n + 1) := Nat.pow_le_pow_right (by norm_num) (Nat.le_succ n)
  have := natDecCore_foldl n n [] 0 hlt
  simpa [natDec, decToNat] using this

theorem natDec_injective : Function.Injective natDec := by
  intro m n h
  have hd : (natDec m).data = (natDec n).data := by rw [h]
  have := congrArg decToNat hd
  rwa [decToNat_natDec, decToNat_natDec] at this

theorem policyCandidate_injective : Function.Injective policyCandidate := by
  intro m n h
  apply natDec_injective
  have hd := congrArg String.data h
  simp only [policyCandidate, String.data_append] at hd
  exact String.ext (List.append_cancel_left hd)

theorem policysetCandidate_injective : Function.Injective policysetCandidate := by
  intro m n h
  apply natDec_injective
  have hd := congrArg String.data h
  simp only [policysetCandidate, String.data_append] at hd
  exact String.ext (List.append_cancel_left hd)

/-! ## Small rewriting lemmas for the `Outcome` monad -/

@[simp] theorem outcome_bind_ok {α β : Type} (a : α) (f : α → Outcome β) :
    (Outcome.ok a >>= f) = f a := rfl

@[simp] theorem outcome_bind_err {α β : Type} (e : ParseError) (f : α → Outcome β) :
    (Outcome.err e >>= f) = .err e := rfl

@[simp] theorem outcome_bind_panic {α β : Type} (m : String) (f : α → Outcome β) :
    (Outcome.panic m >>= f) = .panic m := rfl

@[simp] theorem liftE_ok {α : Type} (a : α) : liftE (.ok a : Except ParseError α) = .ok a := rfl

@[simp] theorem liftE_error {α : Type} (e : ParseError) :
    liftE (.error e : Except ParseError α) = .err e := rfl

@[simp] theorem outcome_pure {α : Type} (a : α) : (pure a : Outcome α) = .ok a := rfl

@[simp] theorem except_bind_ok {α β : Type} (a : α) (f : α → Except ParseError β) :
    (Except.ok a >>= f) = f a := rfl

@[simp] theorem except_bind_error {α β : Type} (e : ParseError)
    (f : α → Except ParseError β) : (Except.error e >>= f) = .error e := rfl

/-! ## Concrete fixtures used by witnesses and counterexamples

These mirror a small slice of the registries that `Context::new` builds from
`standard_types`, `standard_infix`, etc., plus a user namespace `ns1`. -/

/-- The built-in `string` type registered under `_A2X.string`. -/
def tdString : TypeDef := ⟨"string", STRING_URI, [SYSTEM_NS]⟩

/-- The built-in `boolean` type. -/
def tdBoolean : TypeDef := ⟨"boolean", BOOLEAN_URI, [SYSTEM_NS]⟩

/-- The built-in `integer` type. -/
def tdInteger : TypeDef := ⟨"integer", INTEGER_URI, [SYSTEM_NS]⟩

/-- A user-declared type `ns1.myType`. -/
def tdMyType : TypeDef := ⟨"myType", "urn:test:mytype", ["ns1"]⟩

/-- The standard typedef registry slice. -/
def stdTypedefs : List (String × TypeDef) :=
  [("_A2X.string", tdString), ("_A2X.boolean", tdBoolean), ("_A2X.integer", tdInteger),
   ("ns1.myType", tdMyType)]

/-- The import map after `add_standard_defs`: the `_A2X` namespace wildcard
imports itself. -/
def stdImports : List (String × List ImportStmt) :=
  [(SYSTEM_NS, [⟨[SYSTEM_NS], true⟩])]

/-- The `string-equal` overload of `==`. -/
def sigStringEq : InfixSignature :=
  ⟨"urn:oasis:names:tc:xacml:1.0:function:string-equal", "string", "string", "boolean"⟩

/-- The `integer-equal` overload of `==`. -/
def sigIntegerEq : InfixSignature :=
  ⟨"urn:oasis:names:tc:xacml:1.0:function:integer-equal", "integer", "integer", "boolean"⟩

/-- The standard `==` operator: `allow_bags`, commutative, no inverse. -/
def eqOp : InfixOp := ⟨"==", true, true, [sigStringEq, sigIntegerEq], [SYSTEM_NS], none⟩

/-- The `integer-add` overload of a non-boolean, non-bag operator. -/
def sigIntegerAdd : InfixSignature :=
  ⟨"urn:oasis:names:tc:xacml:1.0:function:integer-add", "integer", "integer", "integer"⟩

/-- An arithmetic `+` operator: `allow_bags`, commutative, non-boolean output. -/
def addOp : InfixOp := ⟨"+", true, true, [sigIntegerAdd], [SYSTEM_NS], none⟩

/-- The `integer-less-than` overload of `<`. -/
def sigIntegerLt : InfixSignature :=
  ⟨"urn:oasis:names:tc:xacml:2.0:function:integer-less-than", "integer", "integer", "boolean"⟩

/-- The `integer-greater-than` overload of `>`. -/
def sigIntegerGt : InfixSignature :=
  ⟨"urn:oasis:names:tc:xacml:2.0:function:integer-greater-than", "integer", "integer",
    "boolean"⟩

/-- A `<` operator with declared inverse `>`. -/
def ltOp : InfixOp := ⟨"<", false, false, [sigIntegerLt], [SYSTEM_NS], some ">"⟩

/-- A `>` operator with declared inverse `<`. -/
def gtOp : InfixOp := ⟨">", false, false, [sigIntegerGt], [SYSTEM_NS], some "<"⟩

/-- A non-commutative operator with no declared inverse. -/
def noInvOp : InfixOp := ⟨"~", false, false, [sigIntegerLt], [SYSTEM_NS], none⟩

/-- A function `ns1.stringBag` returning a bag of strings. -/
def fnStringBag : FunctionDef :=
  ⟨"stringBag", ["ns1"], "urn:oasis:names:tc:xacml:1.0:function:string-bag",
    .AtomicBag "string"⟩

/-- A function `ns1.anyFn` whose declared output is the `anyAtomic`
placeholder. -/
def fnAnyAtomic : FunctionDef := ⟨"anyFn", ["ns1"], "urn:test:anyfn", .AnyAtomic⟩

/-- The subject category registered under `_A2X.subjectCat`. -/
def catSubject : Category :=
  ⟨"subjectCat", "urn:oasis:names:tc:xacml:1.0:subject-category:access-subject", [SYSTEM_NS]⟩

/-- An integer-typed attribute `ns1.age`. -/
def attrAge : Attribute := ⟨"age", "integer", "subjectCat", "urn:test:age", ["ns1"]⟩

/-- The conversion context shared by the concrete scenarios. -/
def ctxA : Ctx :=
  { importsMap := stdImports,
    typedefs := stdTypedefs,
    attributes := [("ns1.age", attrAge)],
    categories := [("_A2X.subjectCat", catSubject)],
    functions := [("ns1.stringBag", fnStringBag), ("ns1.anyFn", fnAnyAtomic)],
    infixOps := [("_A2X.==", eqOp), ("_A2X.+", addOp), ("_A2X.<", ltOp), ("_A2X.>", gtOp),
      ("_A2X.~", noInvOp)] }

/-- The bare `==` operator token. -/
def opEq : Operator := ⟨[], "=="⟩

/-! ## C9: decondition requires a condition -/

/-- Claim C9: for every `Policy` without a condition, `Policy::decondition`
fails with `PolicyNoCondition`, and for every `PolicySet` without a condition,
`PolicySet::decondition` fails with `PolicySetNoCondition`.  (Both functions
take `&self` and build their result from clones, so the pure embedding leaves
the input unchanged by construction.) -/
theorem decondition_requires_condition (p : Policy) (ps : PolicySet)
    (hp : p.condition = none) (hps : ps.condition = none) :
    Policy.decondition p = .error .PolicyNoCondition ∧
      PolicySet.decondition ps = .err .PolicySetNoCondition := by
  constructor
  · rw [Policy.decondition, hp]
  · rw [PolicySet.decondition, hps]

/-- A concrete condition-free policy. -/
def pNoCond : Policy :=
  { id := .PolicyName "p1", ns := ["ns1"], policyNs := [some "p1"], description := none,
    target := none, condition := none, applyAlg := "denyOverrides", rules := [],
    prescriptions := [] }

/-- A concrete condition-free policy set. -/
def psNoCond : PolicySet :=
  .mk (.PolicyName "s1") ["ns1"] [some "s1"] none none none "denyOverrides" [] []

/-- Witness for C9 at a concrete policy and policy set. -/
theorem decondition_requires_condition_witness :
    Policy.decondition pNoCond = .error .PolicyNoCondition ∧
      PolicySet.decondition psNoCond = .err .PolicySetNoCondition :=
  decondition_requires_condition pNoCond psNoCond rfl rfl

/-! ## C10: panics reachable from user input -/

/-- Claim C10 (refutation by evaluation): the claim says a hard abort is never
reachable from bad user input, but both cited inputs do abort.  An infix
operand whose type resolves to the `anyAtomic` placeholder reaches the
`panic!` in `check_infix_sign_compat`, and a custom-typed literal inside a
condition reaches the `todo!("resolve custom types")` in
`resolve_literal_types`, instead of returning a typed failure. -/
theorem semantic_panics_reachable :
    typeForExpr ctxA ["ns1"] (.infixE (.fnCall ["anyFn"] []) opEq (.lit (.str "a")))
        = .panic "AnyAtomicBag/AnyAtomic are not valid arguments to an infix operator." ∧
      typeForExpr ctxA ["ns1"] (.lit (.custom "myType" "v"))
        = .panic "resolve custom types" := by
  constructor
  · rfl
  · rfl

/-! ## C6: the condition boundary -/

/-- Claim C6: converting a `Condition` to XACML succeeds only when its
resolved expression type is exactly atomic boolean; an expression resolving
to a bag type, the any-atomic placeholder, or a non-boolean atomic type is
rejected with the located "Conditions must evaluate to (atomic) booleans"
error — the failure the specification calls ConditionBooleanRequired. -/
theorem condition_boolean_gate (c : Ctx) (cond : Condition) :
    (∀ r, xconditionOfCondition c cond = .ok r →
      typeForExpr c cond.ns cond.condExpr = .ok (.Atomic ⟨BOOLEAN_URI⟩)) ∧
    (∀ t, typeForExpr c cond.ns cond.condExpr = .ok t →
      (t.isBag = true ∨ t = .AnyAtomic ∨ (∀ n, t = .Atomic n → n.uri ≠ BOOLEAN_URI)) →
      ∃ msg lbl, xconditionOfCondition c cond = .err (.SrcError msg lbl cond.srcLoc) ∧
        (msg = "Conditions must evaluate to booleans" ∨
          msg = "Conditions must evaluate to atomic booleans")) := by
  constructor
  · intro r hr
    cases ht : typeForExpr c cond.ns cond.condExpr with
    | panic m => rw [xconditionOfCondition, ht] at hr; cases hr
    | err e => rw [xconditionOfCondition, ht] at hr; cases hr
    | ok t =>
      cases t with
      | Atomic n =>
        rw [xconditionOfCondition, ht] at hr
        simp only at hr
        by_cases hb : n.uri = BOOLEAN_URI
        · cases n with
          | mk u => simp_all
        · simp [hb] at hr
      | AtomicBag n => rw [xconditionOfCondition, ht] at hr; simp at hr
      | AnyAtomicBag => rw [xconditionOfCondition, ht] at hr; simp at hr
      | AnyAtomic => rw [xconditionOfCondition, ht] at hr; simp at hr
  · intro t ht hbad
    cases t with
    | Atomic n =>
      have hne : n.uri ≠ BOOLEAN_URI := by
        rcases hbad with h | h | h
        · simp [FunctionTypeResolved.isBag] at h
        · cases h
        · exact h n rfl
      refine ⟨"Conditions must evaluate to booleans",
        "type is " ++ "\"" ++ n.uri ++ "\"", ?_, Or.inl rfl⟩
      rw [xconditionOfCondition, ht]
      simp [hne]
    | AtomicBag n =>
      refine ⟨"Conditions must evaluate to atomic booleans", "non-atomic type", ?_, Or.inr rfl⟩
      rw [xconditionOfCondition, ht]
    | AnyAtomicBag =>
      refine ⟨"Conditions must evaluate to atomic booleans", "non-atomic type", ?_, Or.inr rfl⟩
      rw [xconditionOfCondition, ht]
    | AnyAtomic =>
      refine ⟨"Conditions must evaluate to atomic booleans", "non-atomic type", ?_, Or.inr rfl⟩
      rw [xconditionOfCondition, ht]

/-- Witness for C6: `condition stringBag("a")` (a string-bag expression) and
`condition 3` (an integer literal) both hit the condition type gate. -/
theorem condition_boolean_gate_witness :
    (∃ msg lbl,
      xconditionOfCondition ctxA ⟨.fnCall ["stringBag"] [.lit (.str "a")], ["ns1"], defaultLoc⟩
        = .err (.SrcError msg lbl defaultLoc) ∧
      (msg = "Conditions must evaluate to booleans" ∨
        msg = "Conditions must evaluate to atomic booleans")) ∧
    (∃ msg lbl,
      xconditionOfCondition ctxA ⟨.lit (.intg "3"), ["ns1"], defaultLoc⟩
        = .err (.SrcError msg lbl defaultLoc) ∧
      (msg = "Conditions must evaluate to booleans" ∨
        msg = "Conditions must evaluate to atomic booleans")) := by
  constructor
  · exact (condition_boolean_gate ctxA
      ⟨.fnCall ["stringBag"] [.lit (.str "a")], ["ns1"], defaultLoc⟩).2
      (.AtomicBag ⟨STRING_URI⟩) rfl (Or.inl rfl)
  · exact (condition_boolean_gate ctxA
      ⟨.lit (.intg "3"), ["ns1"], defaultLoc⟩).2
      (.Atomic ⟨INTEGER_URI⟩) rfl
      (Or.inr (Or.inr (by intro n hn hb; cases hn; exact absurd hb (by decide))))

/-! ## C3: bag lifting of infix applications -/

/-- Claim C3: when at least one operand of an infix expression has a bag type
and a signature was matched, the conversion produces
`any-of-any(scalarFunction, operand1, operand2)` when the operator allows bags
and the signature output is boolean; `InfixBagsDisallowed` when the operator
does not allow bags; and `InfixBagsBooleanRequired` when it allows bags but
the output is not boolean. -/
theorem infix_bag_lifting (c : Ctx) (ns : List String) (e1 e2 : CondExpression)
    (o : Operator) (inf : InfixOp) (t1 t2 : FunctionTypeResolved) (sig : InfixSignature)
    (x1 x2 : XExpression) (td : TypeDef)
    (hinf : c.lookupInfixOp o.qualifiedName ns = .ok inf)
    (ht1 : typeForExpr c ns e1 = .ok t1)
    (ht2 : typeForExpr c ns e2 = .ok t2)
    (hbag : t1.isBag = true ∨ t2.isBag = true)
    (hsig : resolveInfixSignature inf t1 t2 c = .ok sig)
    (hx1 : exprToXExpr c ns e1 = .ok x1)
    (hx2 : exprToXExpr c ns e2 = .ok x2)
    (hout : c.lookupType sig.output inf.ns = .ok td) :
    (inf.allowBags = true → td.uri = BOOLEAN_URI →
      exprToXExpr c ns (.infixE e1 o e2) =
        .ok (.applyX anyOfAnyUri [.funcRef sig.uri, x1, x2] (.Atomic ⟨td.uri⟩))) ∧
    (inf.allowBags = false →
      exprToXExpr c ns (.infixE e1 o e2) = .err .InfixBagsDisallowed) ∧
    (inf.allowBags = true → td.uri ≠ BOOLEAN_URI →
      exprToXExpr c ns (.infixE e1 o e2) = .err .InfixBagsBooleanRequired) := by
  have hnotscalar : (!t1.isBag && !t2.isBag) = false := by
    rcases hbag with h | h <;> simp [h]
  have hmain : exprToXExpr c ns (.infixE e1 o e2) =
      createInfixApply sig [x1, x2] t1 t2 inf c := by
    rw [exprToXExpr]
    simp [hinf, ht1, ht2, hsig, hx1, hx2]
  refine ⟨?_, ?_, ?_⟩
  · intro hab hbool
    rw [hmain, createInfixApply]
    simp [hout, hnotscalar, hab, hbool]
  · intro hab
    rw [hmain, createInfixApply]
    simp [hout, hnotscalar, hab]
  · intro hab hbool
    rw [hmain, createInfixApply]
    simp [hout, hnotscalar, hab, hbool]

/-- Witness for C3: `stringBag("a") == "b"` (bag-typed left operand, `==`
allows bags, boolean output) lifts to `any-of-any`; the same operands under
`+` would take the non-boolean branch, and a hypothetical `==` without
`allow_bags` the disallowed branch.  The theorem is applied at the concrete
bag operand with the boolean-output conclusion. -/
theorem infix_bag_lifting_witness :
    exprToXExpr ctxA ["ns1"] (.infixE (.fnCall ["stringBag"] [.lit (.str "a")]) opEq
        (.lit (.str "b"))) =
      .ok (.applyX anyOfAnyUri
        [.funcRef sigStringEq.uri,
          .applyX fnStringBag.functionUri [.value ⟨STRING_URI, "a"⟩] (.AtomicBag ⟨STRING_URI⟩),
          .value ⟨STRING_URI, "b"⟩]
        (.Atomic ⟨BOOLEAN_URI⟩)) := by
  have h := (infix_bag_lifting ctxA ["ns1"] (.fnCall ["stringBag"] [.lit (.str "a")])
    (.lit (.str "b")) opEq eqOp (.AtomicBag ⟨STRING_URI⟩) (.Atomic ⟨STRING_URI⟩)
    sigStringEq
    (.applyX fnStringBag.functionUri [.value ⟨STRING_URI, "a"⟩] (.AtomicBag ⟨STRING_URI⟩))
    (.value ⟨STRING_URI, "b"⟩) tdBoolean
    rfl rfl rfl (Or.inl rfl) rfl rfl rfl rfl).1 rfl rfl
  simpa using h

/-! ## C1: resolution rule order -/

/-- Claim C1: `Resolver::lookup` tries the six resolution rules in the fixed
order 1–6 and returns the entity of the first rule producing a match (so, in
particular, a symbol resolvable both by child match and by a static import
resolves via the child match, which is consulted first); when no rule
matches, the lookup fails with the located symbol-not-found error. -/
theorem resolver_lookup_rule_order {T : Type} (fqn : T → Option String) (tyName : String)
    (elems : List (String × T)) (symbol : String) (sourceNs : List String) (loc : SrcLoc)
    (imps : List ImportStmt) :
    (∀ m, lookupSourceNamespace elems symbol sourceNs = some m →
      ∀ imports, resolverLookup fqn tyName elems symbol sourceNs loc imports = .ok m) ∧
    (lookupSourceNamespace elems symbol sourceNs = none →
      ∀ m, lookupRoot elems symbol = some m →
      ∀ imports, resolverLookup fqn tyName elems symbol sourceNs loc imports = .ok m) ∧
    (lookupSourceNamespace elems symbol sourceNs = none →
      lookupRoot elems symbol = none →
      ∀ m, lookupStaticImportChild fqn elems symbol sourceNs
          (imps.filter fun i => !i.isWildcard) = .ok (some m) →
      resolverLookup fqn tyName elems symbol sourceNs loc (some imps) = .ok m) ∧
    (lookupSourceNamespace elems symbol sourceNs = none →
      lookupRoot elems symbol = none →
      lookupStaticImportChild fqn elems symbol sourceNs
        (imps.filter fun i => !i.isWildcard) = .ok none →
      ∀ m, lookupStaticImportQualified fqn elems symbol
          (imps.filter fun i => !i.isWildcard) = .ok (some m) →
      resolverLookup fqn tyName elems symbol sourceNs loc (some imps) = .ok m) ∧
    (lookupSourceNamespace elems symbol sourceNs = none →
      lookupRoot elems symbol = none →
      lookupStaticImportChild fqn elems symbol sourceNs
        (imps.filter fun i => !i.isWildcard) = .ok none →
      lookupStaticImportQualified fqn elems symbol
        (imps.filter fun i => !i.isWildcard) = .ok none →
      ∀ m, lookupWildcardChild fqn elems symbol sourceNs
          (imps.filter fun i => i.isWildcard) = .ok (some m) →
      resolverLookup fqn tyName elems symbol sourceNs loc (some imps) = .ok m) ∧
    (lookupSourceNamespace elems symbol sourceNs = none →
      lookupRoot elems symbol = none →
      lookupStaticImportChild fqn elems symbol sourceNs
        (imps.filter fun i => !i.isWildcard) = .ok none →
      lookupStaticImportQualified fqn elems symbol
        (imps.filter fun i => !i.isWildcard) = .ok none →
      lookupWildcardChild fqn elems symbol sourceNs
        (imps.filter fun i => i.isWildcard) = .ok none →
      ∀ m, lookupWildcardQualified fqn elems symbol
          (imps.filter fun i => i.isWildcard) = .ok (some m) →
      resolverLookup fqn tyName elems symbol sourceNs loc (some imps) = .ok m) ∧
    (lookupSourceNamespace elems symbol sourceNs = none →
      lookupRoot elems symbol = none →
      lookupStaticImportChild fqn elems symbol sourceNs
        (imps.filter fun i => !i.isWildcard) = .ok none →
      lookupStaticImportQualified fqn elems symbol
        (imps.filter fun i => !i.isWildcard) = .ok none →
      lookupWildcardChild fqn elems symbol sourceNs
        (imps.filter fun i => i.isWildcard) = .ok none →
      lookupWildcardQualified fqn elems symbol
        (imps.filter fun i => i.isWildcard) = .ok none →
      resolverLookup fqn tyName elems symbol sourceNs loc (some imps)
        = .error (symbolNotFoundErr tyName loc)) ∧
    (lookupSourceNamespace elems symbol sourceNs = none →
      lookupRoot elems symbol = none →
      resolverLookup fqn tyName elems symbol sourceNs loc none
        = .error (symbolNotFoundErr tyName loc)) := by
  refine ⟨?_, ?_, ?_, ?_, ?_, ?_, ?_, ?_⟩
  · intro m h1 imports
    simp [resolverLookup, h1]
  · intro h1 m h2 imports
    simp [resolverLookup, h1, h2]
  · intro h1 h2 m h3
    simp [resolverLookup, h1, h2, h3]
  · intro h1 h2 h3 m h4
    simp [resolverLookup, h1, h2, h3, h4]
  · intro h1 h2 h3 h4 m h5
    simp [resolverLookup, h1, h2, h3, h4, h5]
  · intro h1 h2 h3 h4 h5 m h6
    simp [resolverLookup, h1, h2, h3, h4, h5, h6]
  · intro h1 h2 h3 h4 h5 h6
    simp [resolverLookup, h1, h2, h3, h4, h5, h6]
  · intro h1 h2
    simp [resolverLookup, h1, h2]

/-- A registry for the C1 precedence scenario: `R1` resolvable both as a
child of `ns1` and through the static import `lib.R1` (relative and
absolute). -/
def elemsC1 : List (String × String) :=
  [("ns1.R1", "child"), ("lib.R1", "viaAbsoluteImport"), ("ns1.lib.R1", "viaRelativeImport")]

/-- The import list for the C1 scenario: one static import of `lib.R1`. -/
def impsC1 : List ImportStmt := [⟨["lib", "R1"], false⟩]

/-- Witness for C1: with `R1` resolvable by rule 1 and by rules 3 and 4, the
lookup returns the child match, and a symbol that no rule resolves produces
the located symbol-not-found error. -/
theorem resolver_lookup_rule_order_witness :
    resolverLookup some "Rule" elemsC1 "R1" ["ns1"] defaultLoc (some impsC1) = .ok "child" ∧
    resolverLookup some "Rule" elemsC1 "missing" ["ns1"] defaultLoc (some impsC1)
      = .error (symbolNotFoundErr "Rule" defaultLoc) := by
  constructor
  · exact (resolver_lookup_rule_order some "Rule" elemsC1 "R1" ["ns1"] defaultLoc
      impsC1).1 "child" rfl (some impsC1)
  · exact (resolver_lookup_rule_order some "Rule" elemsC1 "missing" ["ns1"] defaultLoc
      impsC1).2.2.2.2.2.2.1 rfl rfl rfl rfl rfl rfl

/-! ## C8: ambiguity handling for the import rules -/

/-- Claim C8: each import-based rule (3–6) is `match_one_and_only` over the
matches its imports collect: more than one distinct matching entity is
`AmbiguousImport`, exactly one match is returned, none falls through to the
next rule (shown through rule 6: when rules 1–5 find nothing, a unique rule-6
match is the lookup's result, and distinct rule-6 matches are
`AmbiguousImport`). -/
theorem import_rules_ambiguity {T : Type} (fqn : T → Option String) (tyName : String)
    (elems : List (String × T)) (symbol : String) (sourceNs : List String) (loc : SrcLoc)
    (imps : List ImportStmt) :
    (∀ (ms : List T) a b, a ∈ ms → b ∈ ms → a ≠ b →
      ∃ s, matchOneAndOnly fqn ms = .error (.AmbiguousImport s)) ∧
    (∀ m : T, matchOneAndOnly fqn [m] = .ok (some m)) ∧
    (matchOneAndOnly fqn ([] : List T) = .ok none) ∧
    (lookupStaticImportChild fqn elems symbol sourceNs imps
        = matchOneAndOnly fqn (collectStaticChild elems symbol sourceNs imps) ∧
      lookupStaticImportQualified fqn elems symbol imps
        = matchOneAndOnly fqn (collectStaticQualified elems symbol imps) ∧
      lookupWildcardChild fqn elems symbol sourceNs imps
        = matchOneAndOnly fqn (collectWildcardChild elems symbol sourceNs imps) ∧
      lookupWildcardQualified fqn elems symbol imps
        = matchOneAndOnly fqn (collectWildcardQualified elems symbol imps)) ∧
    (lookupSourceNamespace elems symbol sourceNs = none →
      lookupRoot elems symbol = none →
      collectStaticChild elems symbol sourceNs (imps.filter fun i => !i.isWildcard) = [] →
      collectStaticQualified elems symbol (imps.filter fun i => !i.isWildcard) = [] →
      collectWildcardChild elems symbol sourceNs (imps.filter fun i => i.isWildcard) = [] →
      ∀ m, collectWildcardQualified elems symbol (imps.filter fun i => i.isWildcard) = [m] →
      resolverLookup fqn tyName elems symbol sourceNs loc (some imps) = .ok m) ∧
    (lookupSourceNamespace elems symbol sourceNs = none →
      lookupRoot elems symbol = none →
      collectStaticChild elems symbol sourceNs (imps.filter fun i => !i.isWildcard) = [] →
      collectStaticQualified elems symbol (imps.filter fun i => !i.isWildcard) = [] →
      collectWildcardChild elems symbol sourceNs (imps.filter fun i => i.isWildcard) = [] →
      ∀ a b rest,
        collectWildcardQualified elems symbol (imps.filter fun i => i.isWildcard)
          = a :: b :: rest →
      ∃ s, resolverLookup fqn tyName elems symbol sourceNs loc (some imps)
        = .error (.AmbiguousImport s)) := by
  refine ⟨?_, ?_, ?_, ⟨rfl, rfl, rfl, rfl⟩, ?_, ?_⟩
  · intro ms a b ha hb hne
    match ms, ha with
    | [x], ha =>
      have ha' : a = x := by simpa using ha
      have hb' : b = x := by simpa using hb
      exact absurd (ha'.trans hb'.symm) hne
    | x :: y :: rest, _ => exact ⟨_, rfl⟩
  · intro m
    rfl
  · rfl
  · intro h1 h2 h3 h4 h5 m h6
    simp [resolverLookup, h1, h2, lookupStaticImportChild, lookupStaticImportQualified,
      lookupWildcardChild, lookupWildcardQualified, h3, h4, h5, h6, matchOneAndOnly]
  · intro h1 h2 h3 h4 h5 a b rest h6
    refine ⟨ambiguousMsg fqn a, ?_⟩
    simp [resolverLookup, h1, h2, lookupStaticImportChild, lookupStaticImportQualified,
      lookupWildcardChild, lookupWildcardQualified, h3, h4, h5, h6, matchOneAndOnly]

/-- The registry for the C8 scenarios: entities `A.R1` and `B.R1`. -/
def elemsC8 : List (String × String) := [("A.R1", "entityA"), ("B.R1", "entityB")]

/-- A registry where only `A` defines `R1`. -/
def elemsC8one : List (String × String) := [("A.R1", "entityA")]

/-- Two wildcard imports, of `A` and of `B`. -/
def impsC8 : List ImportStmt := [⟨["A"], true⟩, ⟨["B"], true⟩]

/-- Witness for C8: two wildcard imports each exposing `R1` make the lookup
fail with `AmbiguousImport`; with only one of them actually defining `R1`,
the lookup succeeds and returns that entity. -/
theorem import_rules_ambiguity_witness :
    (∃ s, resolverLookup some "Rule" elemsC8 "R1" ["ns1"] defaultLoc (some impsC8)
      = .error (.AmbiguousImport s)) ∧
    resolverLookup some "Rule" elemsC8one "R1" ["ns1"] defaultLoc (some impsC8)
      = .ok "entityA" := by
  constructor
  · exact (import_rules_ambiguity some "Rule" elemsC8 "R1" ["ns1"] defaultLoc
      impsC8).2.2.2.2.2 rfl rfl rfl rfl rfl "entityA" "entityB" [] rfl
  · exact (import_rules_ambiguity some "Rule" elemsC8one "R1" ["ns1"] defaultLoc
      impsC8).2.2.2.2.1 rfl rfl rfl rfl rfl "entityA" rfl

/-! ## C4: infix signature matching -/

/-- Counterexample to C4 as stated: the claim says a signature is selected
exactly when *both* declared scalar argument types equal the operands' base
(non-bag) types, and that otherwise resolution fails with
`InfixNoMatchingSignature`.  For operands `bag-of-integer` and `string`
neither `==` overload satisfies that criterion (string/string and
integer/integer), yet the code selects the `string-equal` signature: the base
type of a bag operand is never compared. -/
theorem infix_signature_bag_counterexample :
    resolveInfixSignature eqOp (.AtomicBag ⟨INTEGER_URI⟩) (.Atomic ⟨STRING_URI⟩) ctxA
        = .ok sigStringEq ∧
      sigStringEq.firstArg = "string" ∧
      ctxA.lookupType "string" eqOp.ns = .ok tdString ∧
      tdString.uri = STRING_URI ∧
      INTEGER_URI ≠ STRING_URI ∧
      (Outcome.ok sigStringEq : Outcome InfixSignature) ≠ .err .InfixNoMatchingSignature := by
  exact ⟨rfl, rfl, rfl, rfl, by decide, by decide⟩

/-- The signature-compatibility rule the code actually implements: an atomic
operand's type URI must equal the corresponding declared argument's type URI;
a bag (or any-placeholder) operand is accepted without comparison. -/
def compatSpec (t1 t2 : FunctionTypeResolved) (u1 u2 : String) : Bool :=
  (match t1 with
   | .Atomic n => n.uri == u1
   | _ => true) &&
  (match t2 with
   | .Atomic n => n.uri == u2
   | _ => true)

/-- Claim C4, amended: signatures are tried in declaration order; a signature
matches exactly when every *atomic* operand's type equals the corresponding
declared scalar argument type, while a bag operand matches any declared
argument type (its element type is not compared); if no signature matches,
resolution fails with `InfixNoMatchingSignature`.  (First operands of
`AnyAtomic`/`AnyAtomicBag` type are excluded: they panic, see C10.) -/
theorem infix_signature_matching_amended (c : Ctx) (inf : InfixOp)
    (t1 t2 : FunctionTypeResolved)
    (hn1 : t1 ≠ .AnyAtomic) (hn2 : t1 ≠ .AnyAtomicBag) :
    (∀ sig u1 u2, checkInfixSignCompat inf t1 t2 u1 u2 sig
        = .ok (compatSpec t1 t2 u1 u2)) ∧
    (findCompatSig c inf t1 t2 [] = .ok none) ∧
    (∀ s rest ft st ot,
      c.lookupType s.firstArg inf.ns = .ok ft →
      c.lookupType s.secondArg inf.ns = .ok st →
      c.lookupType s.output inf.ns = .ok ot →
      findCompatSig c inf t1 t2 (s :: rest) =
        if compatSpec t1 t2 ft.uri st.uri then .ok (some s)
        else findCompatSig c inf t1 t2 rest) ∧
    (findCompatSig c inf t1 t2 inf.signatures = .ok none →
      resolveInfixSignature inf t1 t2 c = .err .InfixNoMatchingSignature) ∧
    (∀ sig, findCompatSig c inf t1 t2 inf.signatures = .ok (some sig) →
      resolveInfixSignature inf t1 t2 c = .ok sig) := by
  have hcompat : ∀ sig u1 u2, checkInfixSignCompat inf t1 t2 u1 u2 sig
      = .ok (compatSpec t1 t2 u1 u2) := by
    intro sig u1 u2
    cases t1 with
    | Atomic n =>
      by_cases h1 : n.uri = u1
      · cases t2 with
        | Atomic n2 =>
          by_cases h2 : n2.uri = u2
          · simp [checkInfixSignCompat, compatSpec, h1, h2]
          · simp [checkInfixSignCompat, compatSpec, h1, h2]
        | AtomicBag n2 => simp [checkInfixSignCompat, compatSpec, h1]
        | AnyAtomicBag => simp [checkInfixSignCompat, compatSpec, h1]
        | AnyAtomic => simp [checkInfixSignCompat, compatSpec, h1]
      · simp [checkInfixSignCompat, compatSpec, h1]
    | AtomicBag n =>
      cases t2 with
      | Atomic n2 =>
        by_cases h2 : n2.uri = u2
        · simp [checkInfixSignCompat, compatSpec, h2]
        · simp [checkInfixSignCompat, compatSpec, h2]
      | AtomicBag n2 => simp [checkInfixSignCompat, compatSpec]
      | AnyAtomicBag => simp [checkInfixSignCompat, compatSpec]
      | AnyAtomic => simp [checkInfixSignCompat, compatSpec]
    | AnyAtomicBag => exact absurd rfl hn2
    | AnyAtomic => exact absurd rfl hn1
  refine ⟨hcompat, rfl, ?_, ?_, ?_⟩
  · intro s rest ft st ot hft hst hot
    rw [findCompatSig]
    simp only [hft, hst, hot, liftE_ok, outcome_bind_ok, hcompat]
  · intro h
    rw [resolveInfixSignature]
    simp [h]
  · intro sig h
    rw [resolveInfixSignature]
    simp [h]

/-- Witness for C4 (amended): with integer operands `==` selects the
`integer-equal` overload (the second declared signature, after `string-equal`
fails to match), and with boolean operands no overload matches and resolution
fails with `InfixNoMatchingSignature`. -/
theorem infix_signature_matching_amended_witness :
    resolveInfixSignature eqOp (.Atomic ⟨INTEGER_URI⟩) (.Atomic ⟨INTEGER_URI⟩) ctxA
        = .ok sigIntegerEq ∧
      resolveInfixSignature eqOp (.Atomic ⟨BOOLEAN_URI⟩) (.Atomic ⟨BOOLEAN_URI⟩) ctxA
        = .err .InfixNoMatchingSignature := by
  constructor
  · exact (infix_signature_matching_amended ctxA eqOp (.Atomic ⟨INTEGER_URI⟩)
      (.Atomic ⟨INTEGER_URI⟩) (by decide) (by decide)).2.2.2.2 sigIntegerEq rfl
  · exact (infix_signature_matching_amended ctxA eqOp (.Atomic ⟨BOOLEAN_URI⟩)
      (.Atomic ⟨BOOLEAN_URI⟩) (by decide) (by decide)).2.2.2.1 rfl

/-! ## C5: reversed target-match operands -/

/-- A context in which `<` declares the inverse `>`, but `>` is not
registered anywhere. -/
def ctxC5 : Ctx :=
  { importsMap := stdImports, typedefs := stdTypedefs,
    attributes := [("ns1.age", attrAge)], categories := [("_A2X.subjectCat", catSubject)],
    functions := [], infixOps := [("_A2X.<", ltOp)] }

/-- The reversed target match `age < 5` (attribute before literal). -/
def moC5 : MatchOperation := ⟨["age"], ⟨[], "<"⟩, .intg "5", true, none, false⟩

/-- Counterexample to C5 as stated: the claim says an operator whose declared
inverse symbol cannot be found fails with `InverseInfixNotFound`; in fact the
failed lookup of the inverse symbol surfaces as the located
symbol-not-found error, which is a different `ParseError` value
(`InverseInfixNotFound` is only produced when no inverse is declared at
all). -/
theorem reversed_match_inverse_counterexample :
    matchToXMatch (.matchOp moC5) ["ns1"] ctxC5
        = .error (symbolNotFoundErr "Infix" defaultLoc) ∧
      symbolNotFoundErr "Infix" defaultLoc ≠ .InverseInfixNotFound := by
  exact ⟨rfl, by decide⟩

/-- `scanTargetSigs` reads only the `mustbepresent` and `issuer` fields of the
match operation. -/
theorem scanTargetSigs_mo_congr (c : Ctx) (inf : InfixOp) (tl : TypedLiteral)
    (attrType : String) (a : Attribute) (cat : Category) (mo1 mo2 : MatchOperation)
    (h1 : mo1.mustbepresent = mo2.mustbepresent) (h2 : mo1.issuer = mo2.issuer) :
    ∀ l, scanTargetSigs c inf tl attrType a cat mo1 l
      = scanTargetSigs c inf tl attrType a cat mo2 l := by
  intro l
  induction l with
  | nil => rfl
  | cons s rest ih =>
    simp only [scanTargetSigs, h1, h2, ih]

/-- The `reversed` flag does not influence the continuation of the `MatchOp`
branch. -/
theorem matchOpFinish_reversed (c : Ctx) (mo : MatchOperation) (b : Bool)
    (sourceNs : List String) (tl : TypedLiteral) (inf : InfixOp) :
    matchOpFinish c { mo with reversed := b } sourceNs tl inf
      = matchOpFinish c mo sourceNs tl inf := by
  obtain ⟨ap, op, litc, rev, iss, mbp⟩ := mo
  simp only [matchOpFinish]
  cases c.lookupAttribute (joinDot ap) sourceNs with
  | error e => rfl
  | ok a =>
    simp only [except_bind_ok]
    cases c.lookupType a.typedef a.ns with
    | error e => rfl
    | ok t =>
      simp only [except_bind_ok]
      cases c.lookupCategory a.category a.ns with
      | error e => rfl
      | ok cat =>
        simp only [except_bind_ok]
        exact scanTargetSigs_mo_congr c inf tl t.uri a cat
          ⟨ap, op, litc, b, iss, mbp⟩ ⟨ap, op, litc, rev, iss, mbp⟩ rfl rfl _

/-- Claim C5, amended: for a target match with reversed operands, a
commutative operator is kept (the match compiles exactly as the unreversed
match would); a non-commutative operator with a declared inverse continues
with the inverse operator, whose signatures are then used; a non-commutative
operator without an inverse fails with
`ReversedInfixArgsNotCommutativeError`; and a declared inverse symbol that
cannot be resolved propagates the inverse lookup's own error (the located
symbol-not-found error), while `InverseInfixNotFound` arises only from
`lookup_infix_inverse` on an operator that declares no inverse. -/
theorem reversed_match_operator_amended (c : Ctx) (mo : MatchOperation)
    (sourceNs : List String) (tl : TypedLiteral) (srcInf : InfixOp)
    (htl : c.constantToTypedLiteral mo.literal sourceNs = .ok tl)
    (hsrc : c.lookupInfixOp mo.operator.qualifiedName sourceNs = .ok srcInf)
    (hrev : mo.reversed = true) :
    (srcInf.commutative = true →
      matchToXMatch (.matchOp mo) sourceNs c
        = matchToXMatch (.matchOp { mo with reversed := false }) sourceNs c) ∧
    (srcInf.commutative = false → ∀ invSym invInf, srcInf.inverse = some invSym →
      c.lookupInfixOp invSym sourceNs = .ok invInf →
      matchToXMatch (.matchOp mo) sourceNs c = matchOpFinish c mo sourceNs tl invInf) ∧
    (srcInf.commutative = false → srcInf.inverse = none →
      matchToXMatch (.matchOp mo) sourceNs c
        = .error .ReversedInfixArgsNotCommutativeError) ∧
    (srcInf.commutative = false → ∀ invSym e, srcInf.inverse = some invSym →
      c.lookupInfixOp invSym sourceNs = .error e →
      matchToXMatch (.matchOp mo) sourceNs c = .error e) ∧
    (srcInf.inverse = none →
      c.lookupInfixInverse mo.operator.qualifiedName sourceNs
        = .error .InverseInfixNotFound) := by
  refine ⟨?_, ?_, ?_, ?_, ?_⟩
  · intro hcomm
    obtain ⟨ap, op, litc, rev, iss, mbp⟩ := mo
    simp only at htl hsrc
    simp only at hrev
    subst hrev
    simp only [matchToXMatch, htl, hsrc, except_bind_ok, if_pos rfl, if_true, hcomm,
      ite_true]
    exact (matchOpFinish_reversed c ⟨ap, op, litc, true, iss, mbp⟩ false sourceNs tl
      srcInf).symm
  · intro hcomm invSym invInf hinv hlook
    simp [matchToXMatch, htl, hsrc, hrev, hcomm, Ctx.lookupInfixInverse, hinv, hlook]
  · intro hcomm hinv
    simp [matchToXMatch, htl, hsrc, hrev, hcomm, hinv]
  · intro hcomm invSym e hinv hlook
    simp [matchToXMatch, htl, hsrc, hrev, hcomm, Ctx.lookupInfixInverse, hinv, hlook]
  · intro hinv
    simp [Ctx.lookupInfixInverse, hsrc, hinv]

/-- The reversed match `age == "a"` for the commutative `==`. -/
def moEqRev : MatchOperation := ⟨["age"], ⟨[], "=="⟩, .str "a", true, none, false⟩

/-- The reversed match `age ~ 5` for an operator with neither commutativity
nor an inverse. -/
def moNoInv : MatchOperation := ⟨["age"], ⟨[], "~"⟩, .intg "5", true, none, false⟩

/-- Witness for C5 (amended), against the full context where `>` exists:
the commutative `==` compiles the reversed match exactly as the unreversed
one; the reversed `<` continues with `>` and indeed compiles to the
`integer-greater-than` match; the inverse-free `~` is rejected; and
`lookup_infix_inverse` on the inverse-free `==` is where
`InverseInfixNotFound` comes from. -/
theorem reversed_match_operator_amended_witness :
    (matchToXMatch (.matchOp moEqRev) ["ns1"] ctxA
      = matchToXMatch (.matchOp { moEqRev with reversed := false }) ["ns1"] ctxA) ∧
    (matchToXMatch (.matchOp moC5) ["ns1"] ctxA
      = matchOpFinish ctxA moC5 ["ns1"] ⟨INTEGER_URI, "5"⟩ gtOp) ∧
    (matchToXMatch (.matchOp moC5) ["ns1"] ctxA
      = .ok ⟨sigIntegerGt.uri, "5", INTEGER_URI, attrAge.uri, catSubject.uri, INTEGER_URI,
          false, none⟩) ∧
    (matchToXMatch (.matchOp moNoInv) ["ns1"] ctxA
      = .error .ReversedInfixArgsNotCommutativeError) ∧
    (ctxA.lookupInfixInverse "==" ["ns1"] = .error .InverseInfixNotFound) := by
  refine ⟨?_, ?_, rfl, ?_, ?_⟩
  · exact (reversed_match_operator_amended ctxA moEqRev ["ns1"] ⟨STRING_URI, "a"⟩ eqOp
      rfl rfl rfl).1 rfl
  · exact (reversed_match_operator_amended ctxA moC5 ["ns1"] ⟨INTEGER_URI, "5"⟩ ltOp
      rfl rfl rfl).2.1 rfl ">" gtOp rfl rfl
  · exact (reversed_match_operator_amended ctxA moNoInv ["ns1"] ⟨INTEGER_URI, "5"⟩ noInvOp
      rfl rfl rfl).2.2.1 rfl rfl
  · exact (reversed_match_operator_amended ctxA moEqRev ["ns1"] ⟨STRING_URI, "a"⟩ eqOp
      rfl rfl rfl).2.2.2.2 rfl

/-! ## C2: the deconditioning transform -/

/-- Characterization of the child-threading pass of `PolicySet::decondition`:
when `insert_ns_entry` succeeds on every child, each child policy's Generated
Name Path receives the new slot at the given index (and nothing else about the
child changes), and each child policy set's own path likewise. -/
theorem insertNsEntryList_spec (name : Option String) (idx : Nat) :
    ∀ (l l' : List PolicyEntry), insertNsEntryList l name idx = .ok l' →
      l'.length = l.length ∧
      (∀ i q, l.get? i = some (.policy q) →
        ∃ g', GenName.insertAt q.policyNs idx name = .ok g' ∧
          l'.get? i = some (.policy { q with policyNs := g' })) ∧
      (∀ i qs, l.get? i = some (.policyset qs) →
        ∃ qs' g', l'.get? i = some (.policyset qs') ∧
          GenName.insertAt qs.policyNs idx name = .ok g' ∧ qs'.policyNs = g') := by
  intro l
  induction l with
  | nil =>
    intro l' h
    simp only [insertNsEntryList] at h
    cases h
    refine ⟨rfl, ?_, ?_⟩
    · intro i q hq; simp [List.get?] at hq
    · intro i qs hq; simp [List.get?] at hq
  | cons e rest ih =>
    intro l' h
    match e with
    | .policy p =>
      simp only [insertNsEntryList, Policy.insertNsEntry] at h
      cases hg : GenName.insertAt p.policyNs idx name with
      | panic m => rw [hg] at h; cases h
      | err e2 => rw [hg] at h; cases h
      | ok g' =>
        rw [hg] at h
        simp only [outcome_bind_ok] at h
        cases hr : insertNsEntryList rest name idx with
        | panic m => rw [hr] at h; cases h
        | err e2 => rw [hr] at h; cases h
        | ok rest' =>
          rw [hr] at h
          simp only [outcome_bind_ok] at h
          cases h
          obtain ⟨hlen, hpol, hps⟩ := ih rest' hr
          refine ⟨by simp [hlen], ?_, ?_⟩
          · intro i q hq
            cases i with
            | zero =>
              simp only [List.get?] at hq ⊢
              cases hq
              exact ⟨g', hg, rfl⟩
            | succ n =>
              simp only [List.get?] at hq ⊢
              exact hpol n q hq
          · intro i qs hq
            cases i with
            | zero => simp only [List.get?] at hq; cases hq
            | succ n =>
              simp only [List.get?] at hq ⊢
              exact hps n qs hq
    | .policyset pset =>
      cases pset with
      | mk i2 n2 g2 d2 t2 c2 a2 pols2 pr2 =>
        simp only [insertNsEntryList, PolicySet.insertNsEntryM] at h
        cases hg : GenName.insertAt g2 idx name with
        | panic m => rw [hg] at h; cases h
        | err e2 => rw [hg] at h; cases h
        | ok g' =>
          rw [hg] at h
          simp only [outcome_bind_ok] at h
          cases hp2 : insertNsEntryList pols2 name idx with
          | panic m => rw [hp2] at h; cases h
          | err e2 => rw [hp2] at h; cases h
          | ok pols2' =>
            rw [hp2] at h
            simp only [outcome_bind_ok] at h
            cases hr : insertNsEntryList rest name idx with
            | panic m => rw [hr] at h; cases h
            | err e2 => rw [hr] at h; cases h
            | ok rest' =>
              rw [hr] at h
              simp only [outcome_bind_ok] at h
              cases h
              obtain ⟨hlen, hpol, hps⟩ := ih rest' hr
              refine ⟨by simp [hlen], ?_, ?_⟩
              · intro i q hq
                cases i with
                | zero => simp only [List.get?] at hq; cases hq
                | succ n =>
                  simp only [List.get?] at hq ⊢
                  exact hpol n q hq
              · intro i qs hq
                cases i with
                | zero =>
                  simp only [List.get?] at hq ⊢
                  cases hq
                  exact ⟨.mk i2 n2 g' d2 t2 c2 a2 pols2' pr2, g', rfl, hg, rfl⟩
                | succ n =>
                  simp only [List.get?] at hq ⊢
                  exact hps n qs hq
    | .ref rid rns =>
      simp only [insertNsEntryList] at h
      cases h

/-- A trivially true condition used by the decondition scenarios. -/
def condTrivial : Condition := ⟨.lit (.boolC true), ["ns1"], defaultLoc⟩

/-- A conditioned policy with a description and an explicit URI. -/
def pC2 : Policy :=
  { id := .PolicyNameAndId "p2" "urn:test:p2", ns := ["ns1"], policyNs := [some "p2"],
    description := some "d", target := none, condition := some condTrivial,
    applyAlg := "denyOverrides", rules := [], prescriptions := [] }

/-- The description of the second child of a decondition result. -/
def secondEntryDescr : Except ParseError PolicySet → Option (Option String)
  | .ok ps =>
    match ps.policies.get? 1 with
    | some (.policy q) => some q.description
    | _ => none
  | .error _ => none

/-- Counterexample to C2 as stated: the claim says the renamed "orig" copy
keeps the original's description; in fact the description is *moved* to the
outer wrapping `PolicySet` (`original.description.take()`), so the "orig"
copy's description is `None` even though the original's was `Some "d"`. -/
theorem decondition_description_counterexample :
    secondEntryDescr (Policy.decondition pC2) = some none ∧
      pC2.description = some "d" ∧
      (Policy.decondition pC2).map PolicySet.description = .ok (some "d") := by
  exact ⟨rfl, rfl, rfl⟩

/-- Claim C2, amended: deconditioning a conditioned Policy or PolicySet
produces an outer condition-free `PolicySet` on the protected
`onPermitApplySecond` algorithm that keeps the original's identifier (name
and external URI) and takes over its description, with exactly two children
in order: first a synthetic Policy "cond" on `permitOverrides` holding a
single Permit rule with no target and the original condition; second a
renamed copy "orig" of the original that keeps its target, rules/children and
combining algorithm but is stripped of its condition *and of its description*
(which moved to the wrapper); for a PolicySet, every grandchild's Generated
Name Path receives the new "orig" slot at index `|policyNs|`, the depth of
the inserted segment. -/
theorem decondition_structure_amended (p : Policy) (ps : PolicySet)
    (cond cond2 : Condition) (newPols : List PolicyEntry)
    (hc : p.condition = some cond)
    (hc2 : ps.condition = some cond2)
    (hins : insertNsEntryList ps.policies (some "orig") ps.policyNs.length = .ok newPols) :
    (∃ cp orig : Policy,
      Policy.decondition p = .ok (.mk p.id p.ns p.policyNs p.description none none
        (PROTECTED_NS ++ "." ++ "onPermitApplySecond") [.policy cp, .policy orig] []) ∧
      cp.id = .PolicyName "cond" ∧
      cp.applyAlg = PROTECTED_NS ++ "." ++ "permitOverrides" ∧
      cp.target = none ∧ cp.condition = none ∧ cp.description = none ∧
      cp.policyNs = p.policyNs ++ [some "cond"] ∧
      (∃ r : RuleDef, cp.rules = [.defn r] ∧ r.effect = .Permit ∧ r.target = none ∧
        r.condition = some cond ∧ r.id = none ∧
        r.policyNs = p.policyNs ++ [some "cond"]) ∧
      orig.id = .PolicyName "orig" ∧ orig.ns = p.ns ∧
      orig.policyNs = p.policyNs ++ [some "orig"] ∧
      orig.target = p.target ∧ orig.rules = p.rules ∧ orig.applyAlg = p.applyAlg ∧
      orig.condition = none ∧ orig.description = none) ∧
    (∃ cp : Policy, ∃ orig : PolicySet,
      PolicySet.decondition ps = .ok (.mk ps.id ps.ns ps.policyNs ps.description none none
        (PROTECTED_NS ++ "." ++ "onPermitApplySecond") [.policy cp, .policyset orig] []) ∧
      cp.id = .PolicyName "cond" ∧
      cp.applyAlg = PROTECTED_NS ++ "." ++ "permitOverrides" ∧
      cp.target = none ∧ cp.condition = none ∧ cp.description = none ∧
      cp.policyNs = ps.policyNs ++ [some "cond"] ∧
      (∃ r : RuleDef, cp.rules = [.defn r] ∧ r.effect = .Permit ∧ r.target = none ∧
        r.condition = some cond2 ∧ r.id = none ∧
        r.policyNs = ps.policyNs ++ [some "cond"]) ∧
      orig.id = .PolicyName "orig" ∧ orig.ns = ps.ns ∧
      orig.policyNs = ps.policyNs ++ [some "orig"] ∧
      orig.target = ps.target ∧ orig.applyAlg = ps.applyAlg ∧
      orig.condition = none ∧ orig.description = none ∧
      orig.policies = newPols ∧ orig.prescriptions = ps.prescriptions ∧
      (∀ i q, ps.policies.get? i = some (.policy q) →
        ∃ g', GenName.insertAt q.policyNs ps.policyNs.length (some "orig") = .ok g' ∧
          orig.policies.get? i = some (.policy { q with policyNs := g' })) ∧
      (∀ i qs, ps.policies.get? i = some (.policyset qs) →
        ∃ qs' g', orig.policies.get? i = some (.policyset qs') ∧
          GenName.insertAt qs.policyNs ps.policyNs.length (some "orig") = .ok g' ∧
          qs'.policyNs = g')) := by
  constructor
  · exact ⟨condPolicyOf p.ns p.policyNs cond, p.origCopy,
      by simp only [Policy.decondition, hc], rfl, rfl, rfl, rfl, rfl, rfl,
      ⟨_, rfl, rfl, rfl, rfl, rfl, rfl⟩, rfl, rfl, rfl, rfl, rfl, rfl, rfl, rfl⟩
  · obtain ⟨hlen, hpol, hpset⟩ :=
      insertNsEntryList_spec (some "orig") ps.policyNs.length ps.policies newPols hins
    have heq : PolicySet.decondition ps
        = .ok (.mk ps.id ps.ns ps.policyNs ps.description none none
          (PROTECTED_NS ++ "." ++ "onPermitApplySecond")
          [.policy (condPolicyOf ps.ns ps.policyNs cond2),
            .policyset (.mk (.PolicyName "orig") ps.ns (ps.policyNs ++ [some "orig"]) none
              ps.target none ps.applyAlg newPols ps.prescriptions)] []) := by
      have hidx : (GenName.policyLevel (ps.policyNs ++ [some "orig"])) - 1
          = ps.policyNs.length := by
        simp [GenName.policyLevel]
      simp only [PolicySet.decondition, hc2, hidx, hins, outcome_bind_ok]
    exact ⟨condPolicyOf ps.ns ps.policyNs cond2,
      .mk (.PolicyName "orig") ps.ns (ps.policyNs ++ [some "orig"]) none ps.target none
        ps.applyAlg newPols ps.prescriptions,
      heq, rfl, rfl, rfl, rfl, rfl, rfl, ⟨_, rfl, rfl, rfl, rfl, rfl, rfl⟩,
      rfl, rfl, rfl, rfl, rfl, rfl, rfl, rfl, rfl, hpol, hpset⟩

/-- A child policy of the C2 policy-set scenario, two levels deep. -/
def childC2 : Policy :=
  { id := .PolicyName "c1", ns := ["ns1"], policyNs := [some "s2", some "c1"],
    description := none, target := none, condition := none,
    applyAlg := "denyOverrides", rules := [], prescriptions := [] }

/-- A conditioned policy set with one child policy. -/
def psC2 : PolicySet :=
  .mk (.PolicyName "s2") ["ns1"] [some "s2"] (some "setd") none (some condTrivial)
    "denyOverrides" [.policy childC2] []

/-- Witness for C2 (amended) at a concrete conditioned policy and policy set:
the child policy's Generated Name Path `[s2, c1]` becomes `[s2, orig, c1]`,
with "orig" inserted at depth 1. -/
theorem decondition_structure_amended_witness :
    (∃ cp orig : Policy,
      Policy.decondition pC2 = .ok (.mk pC2.id pC2.ns pC2.policyNs pC2.description none none
        (PROTECTED_NS ++ "." ++ "onPermitApplySecond") [.policy cp, .policy orig] []) ∧
      cp.id = .PolicyName "cond" ∧
      cp.applyAlg = PROTECTED_NS ++ "." ++ "permitOverrides" ∧
      cp.target = none ∧ cp.condition = none ∧ cp.description = none ∧
      cp.policyNs = pC2.policyNs ++ [some "cond"] ∧
      (∃ r : RuleDef, cp.rules = [.defn r] ∧ r.effect = .Permit ∧ r.target = none ∧
        r.condition = some condTrivial ∧ r.id = none ∧
        r.policyNs = pC2.policyNs ++ [some "cond"]) ∧
      orig.id = .PolicyName "orig" ∧ orig.ns = pC2.ns ∧
      orig.policyNs = pC2.policyNs ++ [some "orig"] ∧
      orig.target = pC2.target ∧ orig.rules = pC2.rules ∧ orig.applyAlg = pC2.applyAlg ∧
      orig.condition = none ∧ orig.description = none) ∧
    (∃ cp : Policy, ∃ orig : PolicySet,
      PolicySet.decondition psC2 = .ok (.mk psC2.id psC2.ns psC2.policyNs psC2.description
        none none (PROTECTED_NS ++ "." ++ "onPermitApplySecond")
        [.policy cp, .policyset orig] []) ∧
      cp.id = .PolicyName "cond" ∧
      cp.applyAlg = PROTECTED_NS ++ "." ++ "permitOverrides" ∧
      cp.target = none ∧ cp.condition = none ∧ cp.description = none ∧
      cp.policyNs = psC2.policyNs ++ [some "cond"] ∧
      (∃ r : RuleDef, cp.rules = [.defn r] ∧ r.effect = .Permit ∧ r.target = none ∧
        r.condition = some condTrivial ∧ r.id = none ∧
        r.policyNs = psC2.policyNs ++ [some "cond"]) ∧
      orig.id = .PolicyName "orig" ∧ orig.ns = psC2.ns ∧
      orig.policyNs = psC2.policyNs ++ [some "orig"] ∧
      orig.target = psC2.target ∧ orig.applyAlg = psC2.applyAlg ∧
      orig.condition = none ∧ orig.description = none ∧
      orig.policies
        = [.policy { childC2 with policyNs := [some "s2", some "orig", some "c1"] }] ∧
      orig.prescriptions = psC2.prescriptions ∧
      (∀ i q, psC2.policies.get? i = some (.policy q) →
        ∃ g', GenName.insertAt q.policyNs psC2.policyNs.length (some "orig") = .ok g' ∧
          orig.policies.get? i = some (.policy { q with policyNs := g' })) ∧
      (∀ i qs, psC2.policies.get? i = some (.policyset qs) →
        ∃ qs' g', orig.policies.get? i = some (.policyset qs') ∧
          GenName.insertAt qs.policyNs psC2.policyNs.length (some "orig") = .ok g' ∧
          qs'.policyNs = g')) :=
  decondition_structure_amended pC2 psC2 condTrivial condTrivial
    [.policy { childC2 with policyNs := [some "s2", some "orig", some "c1"] }]
    rfl rfl rfl

/-! ## C7: identifier finalization -/

/-- The first counter value the next draw of `get_next_policy_id` yields. -/
def loopStart (st : NamingState) (ns : List String) : Nat :=
  match assocGet (joinDot ns) st.policyIds with
  | none => 0
  | some c => c + 1

/-- The first counter value the next draw of `get_next_policyset_id` yields. -/
def loopStartSet (st : NamingState) (ns : List String) : Nat :=
  match assocGet (joinDot ns) st.policysetIds with
  | none => 0
  | some c => c + 1

theorem assocGet_assocPut_self {T : Type} (k : String) (v : T) :
    ∀ l, assocGet k (assocPut k v l) = some v := by
  intro l
  induction l with
  | nil => simp [assocPut, assocGet]
  | cons p rest ih =>
    obtain ⟨k2, v2⟩ := p
    by_cases h : k2 = k
    · simp [assocPut, assocGet, h]
    · simp [assocPut, assocGet, h, ih]

/-- `lookup_policy` depends only on the Policy registry and the import map. -/
theorem lookupPolicy_congr (st st' : NamingState) (h1 : st'.policyElems = st.policyElems)
    (h2 : st'.importsMap = st.importsMap) (symbol : String) (ns : List String) :
    st'.lookupPolicy symbol ns = st.lookupPolicy symbol ns := by
  simp only [NamingState.lookupPolicy, NamingState.getImports, h1, h2]

/-- Specification of the `Policy::finalize_id` retry loop: a successful run
returns `policy_<n>` for the first counter value `n`, drawn from the
namespace's monotone counter, whose candidate `lookup_policy` does not find;
the registries and import map are untouched, and the counter is left at
`n`. -/
theorem finalizePolicyLoop_spec :
    ∀ (fuel : Nat) (st : NamingState) (ns : List String) (st' : NamingState) (name : String),
      finalizePolicyLoop fuel st ns = some (st', name) →
      st'.policyElems = st.policyElems ∧ st'.importsMap = st.importsMap ∧
      st'.policysetElems = st.policysetElems ∧
      ∃ n, name = policyCandidate n ∧
        assocGet (joinDot ns) st'.policyIds = some n ∧
        loopStart st ns ≤ n ∧
        exceptIsOk (st.lookupPolicy (policyCandidate n) ns) = false ∧
        ∀ k, loopStart st ns ≤ k → k < n →
          exceptIsOk (st.lookupPolicy (policyCandidate k) ns) = true := by
  intro fuel
  induction fuel with
  | zero => intro st ns st' name h; cases h
  | succ f ih =>
    intro st ns st' name h
    rw [finalizePolicyLoop] at h
    cases hget : assocGet (joinDot ns) st.policyIds with
    | none =>
      simp only [NamingState.getNextPolicyId, hget] at h
      have hstart : loopStart st ns = 0 := by simp [loopStart, hget]
      set st1 : NamingState := { st with policyIds := assocPut (joinDot ns) 0 st.policyIds }
        with hst1
      have hcong : ∀ sym, st1.lookupPolicy sym ns = st.lookupPolicy sym ns := fun sym =>
        lookupPolicy_congr st st1 rfl rfl sym ns
      cases hcheck : exceptIsOk (st1.lookupPolicy (policyCandidate 0) ns) with
      | false =>
        rw [hcheck] at h
        simp only [Bool.false_eq_true, if_false] at h
        rw [Option.some.injEq, Prod.mk.injEq] at h
        obtain ⟨h3, h4⟩ := h
        subst h3
        subst h4
        refine ⟨rfl, rfl, rfl, 0, rfl, assocGet_assocPut_self _ _ _, by omega, ?_, ?_⟩
        · rw [← hcong]; exact hcheck
        · intro k hk1 hk2; omega
      | true =>
        rw [hcheck] at h
        simp only [if_true] at h
        obtain ⟨hE, hI, hS, n, hname, hids, hstart1, hcol1, hmin1⟩ := ih st1 ns st' name h
        have hstart1' : loopStart st1 ns = 1 := by
          simp [loopStart, assocGet_assocPut_self]
        rw [hstart1'] at hstart1 hmin1
        refine ⟨hE, hI, hS, n, hname, hids, by omega, ?_, ?_⟩
        · rw [← hcong]; exact hcol1
        · intro k hk1 hk2
          rcases Nat.lt_or_ge k 1 with hk | hk
          · have : k = 0 := by omega
            subst this
            rw [← hcong]; exact hcheck
          · rw [← hcong]; exact hmin1 k hk hk2
    | some c =>
      simp only [NamingState.getNextPolicyId, hget] at h
      have hstart : loopStart st ns = c + 1 := by simp [loopStart, hget]
      set st1 : NamingState :=
        { st with policyIds := assocPut (joinDot ns) (c + 1) st.policyIds } with hst1
      have hcong : ∀ sym, st1.lookupPolicy sym ns = st.lookupPolicy sym ns := fun sym =>
        lookupPolicy_congr st st1 rfl rfl sym ns
      cases hcheck : exceptIsOk (st1.lookupPolicy (policyCandidate (c + 1)) ns) with
      | false =>
        rw [hcheck] at h
        simp only [Bool.false_eq_true, if_false] at h
        rw [Option.some.injEq, Prod.mk.injEq] at h
        obtain ⟨h3, h4⟩ := h
        subst h3
        subst h4
        refine ⟨rfl, rfl, rfl, c + 1, rfl, assocGet_assocPut_self _ _ _, by omega, ?_, ?_⟩
        · rw [← hcong]; exact hcheck
        · intro k hk1 hk2; omega
      | true =>
        rw [hcheck] at h
        simp only [if_true] at h
        obtain ⟨hE, hI, hS, n, hname, hids, hstart1, hcol1, hmin1⟩ := ih st1 ns st' name h
        have hstart1' : loopStart st1 ns = c + 2 := by
          simp [loopStart, assocGet_assocPut_self]
        rw [hstart1'] at hstart1 hmin1
        refine ⟨hE, hI, hS, n, hname, hids, by omega, ?_, ?_⟩
        · rw [← hcong]; exact hcol1
        · intro k hk1 hk2
          rcases Nat.lt_or_ge k (c + 2) with hk | hk
          · have : k = c + 1 := by omega
            subst this
            rw [← hcong]; exact hcheck
          · rw [← hcong]; exact hmin1 k hk hk2

/-- Specification of the `PolicySet::finalize_id` retry loop: as for the
policy loop, with candidates `policyset_<n>` and the policyset counter — but
with the collision check still performed by `lookup_policy`, i.e. against the
Policy registry. -/
theorem finalizePolicySetLoop_spec :
    ∀ (fuel : Nat) (st : NamingState) (ns : List String) (st' : NamingState) (name : String),
      finalizePolicySetLoop fuel st ns = some (st', name) →
      st'.policyElems = st.policyElems ∧ st'.importsMap = st.importsMap ∧
      st'.policysetElems = st.policysetElems ∧
      ∃ n, name = policysetCandidate n ∧
        assocGet (joinDot ns) st'.policysetIds = some n ∧
        loopStartSet st ns ≤ n ∧
        exceptIsOk (st.lookupPolicy (policysetCandidate n) ns) = false ∧
        ∀ k, loopStartSet st ns ≤ k → k < n →
          exceptIsOk (st.lookupPolicy (policysetCandidate k) ns) = true := by
  intro fuel
  induction fuel with
  | zero => intro st ns st' name h; cases h
  | succ f ih =>
    intro st ns st' name h
    rw [finalizePolicySetLoop] at h
    cases hget : assocGet (joinDot ns) st.policysetIds with
    | none =>
      simp only [NamingState.getNextPolicysetId, hget] at h
      have hstart : loopStartSet st ns = 0 := by simp [loopStartSet, hget]
      set st1 : NamingState :=
        { st with policysetIds := assocPut (joinDot ns) 0 st.policysetIds } with hst1
      have hcong : ∀ sym, st1.lookupPolicy sym ns = st.lookupPolicy sym ns := fun sym =>
        lookupPolicy_congr st st1 rfl rfl sym ns
      cases hcheck : exceptIsOk (st1.lookupPolicy (policysetCandidate 0) ns) with
      | false =>
        rw [hcheck] at h
        simp only [Bool.false_eq_true, if_false] at h
        rw [Option.some.injEq, Prod.mk.injEq] at h
        obtain ⟨h3, h4⟩ := h
        subst h3
        subst h4
        refine ⟨rfl, rfl, rfl, 0, rfl, assocGet_assocPut_self _ _ _, by omega, ?_, ?_⟩
        · rw [← hcong]; exact hcheck
        · intro k hk1 hk2; omega
      | true =>
        rw [hcheck] at h
        simp only [if_true] at h
        obtain ⟨hE, hI, hS, n, hname, hids, hstart1, hcol1, hmin1⟩ := ih st1 ns st' name h
        have hstart1' : loopStartSet st1 ns = 1 := by
          simp [loopStartSet, assocGet_assocPut_self]
        rw [hstart1'] at hstart1 hmin1
        refine ⟨hE, hI, hS, n, hname, hids, by omega, ?_, ?_⟩
        · rw [← hcong]; exact hcol1
        · intro k hk1 hk2
          rcases Nat.lt_or_ge k 1 with hk | hk
          · have : k = 0 := by omega
            subst this
            rw [← hcong]; exact hcheck
          · rw [← hcong]; exact hmin1 k hk hk2
    | some c =>
      simp only [NamingState.getNextPolicysetId, hget] at h
      have hstart : loopStartSet st ns = c + 1 := by simp [loopStartSet, hget]
      set st1 : NamingState :=
        { st with policysetIds := assocPut (joinDot ns) (c + 1) st.policysetIds } with hst1
      have hcong : ∀ sym, st1.lookupPolicy sym ns = st.lookupPolicy sym ns := fun sym =>
        lookupPolicy_congr st st1 rfl rfl sym ns
      cases hcheck : exceptIsOk (st1.lookupPolicy (policysetCandidate (c + 1)) ns) with
      | false =>
        rw [hcheck] at h
        simp only [Bool.false_eq_true, if_false] at h
        rw [Option.some.injEq, Prod.mk.injEq] at h
        obtain ⟨h3, h4⟩ := h
        subst h3
        subst h4
        refine ⟨rfl, rfl, rfl, c + 1, rfl, assocGet_assocPut_self _ _ _, by omega, ?_, ?_⟩
        · rw [← hcong]; exact hcheck
        · intro k hk1 hk2; omega
      | true =>
        rw [hcheck] at h
        simp only [if_true] at h
        obtain ⟨hE, hI, hS, n, hname, hids, hstart1, hcol1, hmin1⟩ := ih st1 ns st' name h
        have hstart1' : loopStartSet st1 ns = c + 2 := by
          simp [loopStartSet, assocGet_assocPut_self]
        rw [hstart1'] at hstart1 hmin1
        refine ⟨hE, hI, hS, n, hname, hids, by omega, ?_, ?_⟩
        · rw [← hcong]; exact hcol1
        · intro k hk1 hk2
          rcases Nat.lt_or_ge k (c + 2) with hk | hk
          · have : k = c + 1 := by omega
            subst this
            rw [← hcong]; exact hcheck
          · rw [← hcong]; exact hmin1 k hk hk2

/-- A state with a policy set registered under `ns1.policyset_0` and nothing
else. -/
def stC7 : NamingState :=
  { importsMap := [], policyElems := [],
    policysetElems := [("ns1.policyset_0", "ns1.policyset_0")],
    policyIds := [], policysetIds := [] }

/-- Counterexample to C7 as stated: the claim says `finalize_id` accepts the
first candidate that does not collide with an already-registered
fully-qualified name *of that kind*; but `PolicySet::finalize_id` checks its
`policyset_<n>` candidates with `lookup_policy` (the Policy registry), so with
a policy set registered as `ns1.policyset_0` the anonymous policy set in
`ns1` is still named `policyset_0`. -/
theorem finalize_policyset_kind_counterexample :
    finalizePolicySetLoop 3 stC7 ["ns1"]
        = some ({ stC7 with policysetIds := [("ns1", 0)] }, "policyset_0") ∧
      assocGet "ns1.policyset_0" stC7.policysetElems = some "ns1.policyset_0" := by
  exact ⟨rfl, rfl⟩

/-- Claim C7, amended: with the last Generated-Name-Path slot empty,
`finalize_id` repeatedly draws the namespace's next id counter and fills the
slot with `policy_<n>` / `policyset_<n>` for the first drawn `n` whose
candidate `lookup_policy` does not find — i.e. the collision check is against
registered *Policy* names in both entry points (see the counterexample for
the PolicySet kind).  Consequently two anonymous policies finalized one after
the other in the same namespace receive distinct generated names, and an
explicitly declared `policy_0` (visible to `lookup_policy`) forces the next
anonymous policy past that value. -/
theorem finalize_id_amended :
    (∀ fuel st ns (g : GenName) st' name, GenName.lastElem g = some none →
      finalizePolicyLoop fuel st ns = some (st', name) →
      finalizePolicyId fuel st ns g = some (.ok (st', List.dropLast g ++ [some name]))) ∧
    (∀ fuel st ns (g : GenName) st' name, GenName.lastElem g = some none →
      finalizePolicySetLoop fuel st ns = some (st', name) →
      finalizePolicySetId fuel st ns g = some (.ok (st', List.dropLast g ++ [some name]))) ∧
    (∀ fuel st ns st' name, finalizePolicyLoop fuel st ns = some (st', name) →
      ∃ n, name = policyCandidate n ∧
        exceptIsOk (NamingState.lookupPolicy st (policyCandidate n) ns) = false ∧
        loopStart st ns ≤ n ∧
        ∀ k, loopStart st ns ≤ k → k < n →
          exceptIsOk (NamingState.lookupPolicy st (policyCandidate k) ns) = true) ∧
    (∀ fuel st ns st' name, finalizePolicySetLoop fuel st ns = some (st', name) →
      ∃ n, name = policysetCandidate n ∧
        exceptIsOk (NamingState.lookupPolicy st (policysetCandidate n) ns) = false ∧
        loopStartSet st ns ≤ n ∧
        ∀ k, loopStartSet st ns ≤ k → k < n →
          exceptIsOk (NamingState.lookupPolicy st (policysetCandidate k) ns) = true) ∧
    (∀ f1 f2 st ns st1 st2 nm1 nm2,
      finalizePolicyLoop f1 st ns = some (st1, nm1) →
      finalizePolicyLoop f2 st1 ns = some (st2, nm2) → nm1 ≠ nm2) ∧
    (∀ fuel st ns st' nm,
      exceptIsOk (NamingState.lookupPolicy st (policyCandidate 0) ns) = true →
      finalizePolicyLoop fuel st ns = some (st', nm) → nm ≠ policyCandidate 0) := by
  refine ⟨?_, ?_, ?_, ?_, ?_, ?_⟩
  · intro fuel st ns g st' name hlast hloop
    rw [finalizePolicyId, hlast, hloop]
    rfl
  · intro fuel st ns g st' name hlast hloop
    rw [finalizePolicySetId, hlast, hloop]
    rfl
  · intro fuel st ns st' name h
    obtain ⟨_, _, _, n, hname, _, hstart, hcol, hmin⟩ :=
      finalizePolicyLoop_spec fuel st ns st' name h
    exact ⟨n, hname, hcol, hstart, hmin⟩
  · intro fuel st ns st' name h
    obtain ⟨_, _, _, n, hname, _, hstart, hcol, hmin⟩ :=
      finalizePolicySetLoop_spec fuel st ns st' name h
    exact ⟨n, hname, hcol, hstart, hmin⟩
  · intro f1 f2 st ns st1 st2 nm1 nm2 h1 h2
    obtain ⟨hE, hI, hS, n1, hname1, hids1, _, _, _⟩ :=
      finalizePolicyLoop_spec f1 st ns st1 nm1 h1
    obtain ⟨_, _, _, n2, hname2, _, hstart2, _, _⟩ :=
      finalizePolicyLoop_spec f2 st1 ns st2 nm2 h2
    have hstart1 : loopStart st1 ns = n1 + 1 := by
      simp [loopStart, hids1]
    rw [hstart1] at hstart2
    subst hname1
    subst hname2
    intro hcontra
    have := policyCandidate_injective hcontra
    omega
  · intro fuel st ns st' nm hzero h
    obtain ⟨_, _, _, n, hname, _, _, hcol, _⟩ :=
      finalizePolicyLoop_spec fuel st ns st' nm h
    subst hname
    intro hcontra
    have := policyCandidate_injective hcontra
    subst this
    rw [hzero] at hcol
    cases hcol

/-- A state with an explicitly declared policy registered as
`ns1.policy_0`. -/
def stW : NamingState :=
  { importsMap := [], policyElems := [("ns1.policy_0", "ns1.policy_0")],
    policysetElems := [], policyIds := [], policysetIds := [] }

/-- Witness for C7 (amended): with `ns1.policy_0` declared, the first
anonymous policy in `ns1` is finalized to `policy_1` (the counter value 0 is
consumed and rejected), the next one to `policy_2`; the two generated names
are distinct and both differ from `policy_0`. -/
theorem finalize_id_amended_witness :
    finalizePolicyId 5 stW ["ns1"] [none]
        = some (.ok ({ stW with policyIds := [("ns1", 1)] }, [some "policy_1"])) ∧
      ("policy_1" : String) ≠ "policy_2" ∧
      ("policy_1" : String) ≠ policyCandidate 0 := by
  refine ⟨?_, ?_, ?_⟩
  · exact (finalize_id_amended).1 5 stW ["ns1"] [none]
      { stW with policyIds := [("ns1", 1)] } "policy_1" rfl rfl
  · exact (finalize_id_amended).2.2.2.2.1 5 5 stW ["ns1"]
      { stW with policyIds := [("ns1", 1)] } { stW with policyIds := [("ns1", 2)] }
      "policy_1" "policy_2" rfl rfl
  · exact (finalize_id_amended).2.2.2.2.2 5 stW ["ns1"]
      { stW with policyIds := [("ns1", 1)] } "policy_1" rfl rfl

end A2X
